import Mathlib

/-!
# Stockast: volatility estimation, Black-Scholes paths and two-level averaging

A shallow embedding of `src/main.cpp`.

* `float` values are elements of an arbitrary field `F`; the two library
  functions whose results are not field operations, `sqrtf` and `exp`, are
  parameters of the functions that call them.  `powf (x, 2.0f)` is `x ^ 2`.
* `int` values are `Int` (or `Nat` where the caller has already used the value
  as an array length).
* Heap arrays are lists of the allocated length, read and written by index.
* The ways a function can fail to return are the constructors of `Fault`.
* The random generator is a function giving the result of the `k`-th call of
  `rand_gen`.
* `run_black_scholes_model_checked` repeats `run_black_scholes_model` with
  every array access tested against the allocated length.
* The rounding of `float` is left out of these definitions.  Where a property
  depends on it, `calculate_volatility_rnd` repeats `calculate_volatility`
  with the rounding as a parameter, and `exp_underflow` is the exponential
  with the underflow of `float`.
-/

namespace Stockast

/-- Ways in which a function of the program ends without returning a value. -/
inductive Fault where
  /-- The call `exit(EXIT_FAILURE)`. -/
  | exitFailure
  /-- The exception `std::invalid_argument`, thrown by `stof`: no conversion. -/
  | invalidArgument
  /-- The exception `std::out_of_range`, thrown by `stof`: the literal is
  outside the range of `float`. -/
  | outOfRange
  /-- Not an exit of the program: `stof` has returned an infinity or a NaN
  and the program goes on computing with it.  Such a value is no element of
  the field `F`, so the model does not follow the run any further. -/
  | nonFinite
  /-- An array allocated with a negative length. -/
  | badAlloc
  /-- An array of `size` elements accessed at `index`, with `size ≤ index`. -/
  | outOfBounds (index size : Nat)
  deriving DecidableEq, Repr

/-! ## Reading the historical line -/

/-- The file `data.csv`, as `ifstream::open` finds it. -/
inductive DataSource where
  /-- The file cannot be opened. -/
  | unopenable
  /-- The file is open and holds `content`. -/
  | opened (content : String)
  deriving DecidableEq, Repr

/-- The call `getline(file_ptr, line)` on a fresh stream over `content`: the
characters before the first line feed; it fails exactly when no character at
all can be extracted, that is on empty content. -/
def getline_first : List Char → Option (List Char)
  | [] => none
  | c :: cs => some ((c :: cs).takeWhile (fun d => d ≠ '\n'))

/-- The tokens that the loop `while (getline(iss, token, ','))` extracts from
the line, in order.  A comma ends a token; the end of the line ends the last
one; and once the end is reached with nothing extracted the loop stops, so a
line ending in a comma has no empty token after it. -/
def getline_tokens : List Char → List (List Char)
  | [] => []
  | c :: cs =>
    if c = ',' then [] :: getline_tokens cs
    else
      match getline_tokens cs with
      | [] => [[c]]
      | t :: ts => (c :: t) :: ts

/-- A decimal literal as `stof` reads it: sign, the digits of the integer and
fraction part read as one natural number, and the power of ten to scale by. -/
structure Decimal where
  neg : Bool
  mant : Nat
  scale : Int
  deriving DecidableEq, Repr

/-- The number a decimal literal denotes. -/
def Decimal.value {F : Type} [Field F] (d : Decimal) : F :=
  let m : F := if d.neg then -(d.mant : F) else (d.mant : F)
  if 0 ≤ d.scale then m * (10 : F) ^ d.scale.toNat else m / (10 : F) ^ (-d.scale).toNat

/-- The C function `isspace` in the default locale. -/
def isspace (c : Char) : Bool :=
  c = ' ' || c = '\t' || c = '\n' || c = '\x0b' || c = '\x0c' || c = '\r'

/-- Decimal digit test. -/
def isdigit (c : Char) : Bool := '0' ≤ c && c ≤ '9'

/-- Hexadecimal digit test. -/
def isxdigit (c : Char) : Bool :=
  isdigit c || ('a' ≤ c && c ≤ 'f') || ('A' ≤ c && c ≤ 'F')

/-- Read a run of decimal digits: the number read so far extended by the
digits, how many digits were read, and the rest of the input. -/
def read_digits : Nat → Nat → List Char → Nat × Nat × List Char
  | acc, n, [] => (acc, n, [])
  | acc, n, c :: cs =>
    if isdigit c then read_digits (acc * 10 + (c.toNat - '0'.toNat)) (n + 1) cs
    else (acc, n, c :: cs)

/-- The exponent part of a decimal literal, `e` or `E`, an optional sign and
at least one digit; it counts as `0` when it is absent or incomplete. -/
def read_exponent : List Char → Int
  | [] => 0
  | c :: cs =>
    if c = 'e' ∨ c = 'E' then
      match cs with
      | '-' :: ds =>
        let r := read_digits 0 0 ds
        if r.2.1 = 0 then 0 else -(r.1 : Int)
      | '+' :: ds =>
        let r := read_digits 0 0 ds
        if r.2.1 = 0 then 0 else (r.1 : Int)
      | ds =>
        let r := read_digits 0 0 ds
        if r.2.1 = 0 then 0 else (r.1 : Int)
    else 0

/-- Case-insensitive test that the input starts with the given lower-case
letters. -/
def starts_with_nocase : List Char → List Char → Bool
  | [], _ => true
  | _ :: _, [] => false
  | p :: ps, c :: cs => (c.toLower = p) && starts_with_nocase ps cs

/-- The input starts a hexadecimal literal: `0x` or `0X` followed by a
hexadecimal digit, or by a point and a hexadecimal digit. -/
def is_hex_literal : List Char → Bool
  | '0' :: x :: h :: rest =>
    (x = 'x' || x = 'X') && (isxdigit h || (h = '.' && (rest.head?.map isxdigit = some true)))
  | _ => false

/-- The value of a hexadecimal digit. -/
def hex_value (c : Char) : Nat :=
  if isdigit c then c.toNat - '0'.toNat
  else if 'a' ≤ c && c ≤ 'f' then c.toNat - 'a'.toNat + 10
  else c.toNat - 'A'.toNat + 10

/-- Read a run of hexadecimal digits: the number read so far extended by the
digits, how many digits were read, and the rest of the input. -/
def read_hex_digits : Nat → Nat → List Char → Nat × Nat × List Char
  | acc, n, [] => (acc, n, [])
  | acc, n, c :: cs =>
    if isxdigit c then read_hex_digits (acc * 16 + hex_value c) (n + 1) cs
    else (acc, n, c :: cs)

/-- The exponent part of a hexadecimal literal, `p` or `P`, an optional sign
and at least one decimal digit, a power of two; it counts as `0` when it is
absent or incomplete. -/
def read_binary_exponent : List Char → Int
  | [] => 0
  | c :: cs =>
    if c = 'p' ∨ c = 'P' then
      match cs with
      | '-' :: ds =>
        let r := read_digits 0 0 ds
        if r.2.1 = 0 then 0 else -(r.1 : Int)
      | '+' :: ds =>
        let r := read_digits 0 0 ds
        if r.2.1 = 0 then 0 else (r.1 : Int)
      | ds =>
        let r := read_digits 0 0 ds
        if r.2.1 = 0 then 0 else (r.1 : Int)
    else 0

/-- The number `mant * 2 ^ e` written as a decimal literal: for `e < 0` it is
`mant * 5 ^ (-e) / 10 ^ (-e)`. -/
def dyadic (neg : Bool) (mant : Nat) (e : Int) : Decimal :=
  if 0 ≤ e then ⟨neg, mant * 2 ^ e.toNat, 0⟩ else ⟨neg, mant * 5 ^ (-e).toNat, e⟩

/-- The magnitude of the literal rounds to a `float` beyond the largest one:
it is at least `2 ^ 128 - 2 ^ 103`, half a unit in the last place above
`FLT_MAX`.  The function `strtof` then reports `ERANGE`. -/
def float_overflow (d : Decimal) : Bool :=
  if 0 ≤ d.scale then decide (2 ^ 128 - 2 ^ 103 ≤ d.mant * 10 ^ d.scale.toNat)
  else decide ((2 ^ 128 - 2 ^ 103) * 10 ^ (-d.scale).toNat ≤ d.mant)

/-- The magnitude of the literal is not zero, rounds to less than the least
positive normal `float` `2 ^ (-126)` (it is below `2 ^ (-126) - 2 ^ (-151)`), and
is not itself a `float`, a multiple of `2 ^ (-149)`: the result is tiny and
inexact and `strtof` reports `ERANGE` (as the C library of GNU does where
tininess is detected after rounding; the C standard leaves this case to the
implementation). -/
def float_underflow (d : Decimal) : Bool :=
  if 0 ≤ d.scale then false
  else
    decide (d.mant ≠ 0)
      && decide (d.mant * 2 ^ 151 < (2 ^ 25 - 1) * 10 ^ (-d.scale).toNat)
      && !decide (10 ^ (-d.scale).toNat ∣ d.mant * 2 ^ 149)

/-- The end of `std::stof` once the literal is read: `std::out_of_range` is
thrown when `strtof` has reported `ERANGE`. -/
def in_float_range (d : Decimal) : Except Fault Decimal :=
  if float_overflow d || float_underflow d then .error .outOfRange else .ok d

/-- The literal after white space and sign.  The words `inf`, `infinity` and
`nan` in any case are converted to values that are not numbers.  A
hexadecimal literal is `0x`, hexadecimal digits with an optional point among
them, and an optional binary exponent.  A decimal literal is the digits of
the integer part, an optional point and fraction digits, with at least one
digit in all, then an optional exponent. -/
def stof_unsigned (neg : Bool) (s : List Char) : Except Fault Decimal :=
  if starts_with_nocase ['i', 'n', 'f'] s || starts_with_nocase ['n', 'a', 'n'] s then
    .error .nonFinite
  else if is_hex_literal s then
    let ip := read_hex_digits 0 0 (s.drop 2)
    match ip.2.2 with
    | '.' :: fs =>
      let fp := read_hex_digits ip.1 0 fs
      in_float_range (dyadic neg fp.1 (read_binary_exponent fp.2.2 - 4 * fp.2.1))
    | _ => in_float_range (dyadic neg ip.1 (read_binary_exponent ip.2.2))
  else
    let ip := read_digits 0 0 s
    match ip.2.2 with
    | '.' :: fs =>
      let fp := read_digits ip.1 0 fs
      if ip.2.1 + fp.2.1 = 0 then .error .invalidArgument
      else in_float_range ⟨neg, fp.1, read_exponent fp.2.2 - fp.2.1⟩
    | _ =>
      if ip.2.1 = 0 then .error .invalidArgument
      else in_float_range ⟨neg, ip.1, read_exponent ip.2.2⟩

/-- The library function `std::stof` on a token: skip leading white space,
read an optional sign and the longest literal, ignore what follows.  With no
literal it throws `std::invalid_argument`, and with a literal outside the
range of `float` it throws `std::out_of_range`.  The result is the exact
value of the literal: the rounding of that value to `float` is not part of
this function. -/
def stof : List Char → Except Fault Decimal
  | [] => .error .invalidArgument
  | c :: cs =>
    if isspace c then stof cs
    else if c = '-' then stof_unsigned true cs
    else if c = '+' then stof_unsigned false cs
    else stof_unsigned false (c :: cs)

/-! ## `calculate_volatility` -/

section Volatility

variable {F : Type} [Field F]

/-- The loop body `priceArr[i++] = stof(token)` on the state `(i, priceArr)`:
the token is converted first, then stored at index `i` with no test of `i`
against the length of the buffer, and `i` is incremented. -/
def store_token (st : Nat × List F) (token : List Char) : Except Fault (Nat × List F) :=
  match stof token with
  | .error e => .error e
  | .ok d =>
    if st.1 < st.2.length then .ok (st.1 + 1, st.2.set st.1 d.value)
    else .error (.outOfBounds st.1 st.2.length)

/-- Lines 37 to 46 of `calculate_volatility`: `priceArr` starts as a zeroed
buffer of `len` values (`make_unique<float[]>` value-initialises) and the
tokens of the line are stored in it from index 0. -/
def read_prices (line : List Char) (len : Nat) : Except Fault (List F) :=
  match (getline_tokens line).foldlM store_token (0, List.replicate len (0 : F)) with
  | .error e => .error e
  | .ok filled => .ok filled.2

/-- Lines 48 to 53: the sum starts at `spot_price`, the `len` buffer entries
are added, and the result is divided by `len + 1`. -/
def mean_price (spot_price : F) (len : Nat) (priceArr : List F) : F :=
  let sum := (List.range len).foldl (fun s i => s + priceArr.getD i 0) spot_price
  sum / (((len : Int) + 1 : Int) : F)

/-- Lines 56 to 58: the sum of the squared deviations from the mean, of
`spot_price` and of the `len` buffer entries. -/
def sum_sq_dev (spot_price : F) (len : Nat) (priceArr : List F) (mean : F) : F :=
  (List.range len).foldl (fun s i => s + (priceArr.getD i 0 - mean) ^ 2)
    ((spot_price - mean) ^ 2)

/-- Lines 37 to 63 of `calculate_volatility`, on the line read from the file:
allocate and fill the buffer of `len = time_steps - 1` values, take the mean,
sum the squared deviations, and return the square root of that sum divided
by 100. -/
def volatility_of_line (sqrtf : F → F) (line : List Char) (spot_price : F)
    (time_steps : Int) : Except Fault F :=
  if time_steps - 1 < 0 then .error .badAlloc
  else
    let len : Nat := (time_steps - 1).toNat
    match read_prices line len with
    | .error e => .error e
    | .ok priceArr =>
      let sum := sum_sq_dev spot_price len priceArr (mean_price spot_price len priceArr)
      let std_dev := sqrtf sum
      .ok (std_dev / 100)

/-- The function `calculate_volatility`: open `data.csv` and read its first
line, leaving through `exit(EXIT_FAILURE)` when either fails; then compute
the volatility from that line. -/
def calculate_volatility (sqrtf : F → F) (data : DataSource) (spot_price : F)
    (time_steps : Int) : Except Fault F :=
  match data with
  | .unopenable => .error .exitFailure
  | .opened content =>
    match getline_first content.data with
    | none => .error .exitFailure
    | some line => volatility_of_line sqrtf line spot_price time_steps

/-! ### The same lines with the rounding of `float` made explicit

Every `float` operation returns its exact result rounded to `float`.  In
the definitions above that rounding is left out; in the definitions below it
is the parameter `rnd`, applied wherever the program produces a `float`: to
the value converted by `stof`, and to the result of every addition,
subtraction, division and `powf`.  The result of `sqrtf` is a `float`
already.  With the identity for `rnd` these are the definitions above. -/

/-- The loop body `priceArr[i++] = stof(token)`, the converted value being
rounded to `float`. -/
def store_token_rnd (rnd : F → F) (st : Nat × List F) (token : List Char) :
    Except Fault (Nat × List F) :=
  match stof token with
  | .error e => .error e
  | .ok d =>
    if st.1 < st.2.length then .ok (st.1 + 1, st.2.set st.1 (rnd d.value))
    else .error (.outOfBounds st.1 st.2.length)

/-- Lines 37 to 46 with rounding. -/
def read_prices_rnd (rnd : F → F) (line : List Char) (len : Nat) : Except Fault (List F) :=
  match (getline_tokens line).foldlM (store_token_rnd rnd) (0, List.replicate len (0 : F)) with
  | .error e => .error e
  | .ok filled => .ok filled.2

/-- Lines 48 to 53 with rounding: each addition and the division are rounded. -/
def mean_price_rnd (rnd : F → F) (spot_price : F) (len : Nat) (priceArr : List F) : F :=
  let sum := (List.range len).foldl (fun s i => rnd (s + priceArr.getD i 0)) spot_price
  rnd (sum / (((len : Int) + 1 : Int) : F))

/-- Lines 56 to 58 with rounding: each subtraction, each `powf` and each
addition are rounded. -/
def sum_sq_dev_rnd (rnd : F → F) (spot_price : F) (len : Nat) (priceArr : List F)
    (mean : F) : F :=
  (List.range len).foldl
    (fun s i => rnd (s + rnd (rnd (priceArr.getD i 0 - mean) ^ 2)))
    (rnd (rnd (spot_price - mean) ^ 2))

/-- Lines 37 to 63 with rounding. -/
def volatility_of_line_rnd (rnd sqrtf : F → F) (line : List Char) (spot_price : F)
    (time_steps : Int) : Except Fault F :=
  if time_steps - 1 < 0 then .error .badAlloc
  else
    let len : Nat := (time_steps - 1).toNat
    match read_prices_rnd rnd line len with
    | .error e => .error e
    | .ok priceArr =>
      let sum := sum_sq_dev_rnd rnd spot_price len priceArr
        (mean_price_rnd rnd spot_price len priceArr)
      let std_dev := sqrtf sum
      .ok (rnd (std_dev / 100))

/-- The function `calculate_volatility` with rounding. -/
def calculate_volatility_rnd (rnd sqrtf : F → F) (data : DataSource) (spot_price : F)
    (time_steps : Int) : Except Fault F :=
  match data with
  | .unopenable => .error .exitFailure
  | .opened content =>
    match getline_first content.data with
    | none => .error .exitFailure
    | some line => volatility_of_line_rnd rnd sqrtf line spot_price time_steps

/-- Rounding to `float` where the magnitude of the exact result decides it: a
result of magnitude at most `2 ^ (-150)`, half the least positive `float`,
rounds to 0.  Any other result is returned as it is, which is what rounding
does to a result that is a `float`. -/
def round_tiny {K : Type} [LinearOrderedField K] (x : K) : K :=
  if |x| ≤ 1 / 2 ^ 150 then 0 else x

end Volatility

/-- The mean of §4.2 of the specification: `(spot_price + Σ prices) / (N + 1)`
for a sequence of `N` prices. -/
def spec_mean {F : Type} [Field F] (spot_price : F) (prices : List F) : F :=
  (spot_price + prices.sum) / ((prices.length : F) + 1)

/-- The sum of squared deviations of §4.2 of the specification:
`S = (spot_price - mean)² + Σ (price_i - mean)²`. -/
def spec_sum_sq {F : Type} [Field F] (spot_price : F) (prices : List F) : F :=
  (spot_price - spec_mean spot_price prices) ^ 2
    + (prices.map (fun p => (p - spec_mean spot_price prices) ^ 2)).sum

/-! ## `find_2d_mean` -/

section Mean

variable {F : Type} [Field F]

/-- The function `find_2d_mean`.  The state of the outer loop is `(avg, sum)`:
`sum` is declared once, before the loop over the columns, and set back to 0
at the end of each iteration.  `matrix[j][i]` is read for `j < num_loops`
and `i < time_steps`, so the matrix must have that many rows and columns.
Both dimensions are array lengths in `main` before the call, hence `Nat`. -/
def find_2d_mean (matrix : List (List F)) (num_loops time_steps : Nat) : List F :=
  ((List.range time_steps).foldl
    (fun (st : List F × F) i =>
      let sum := (List.range num_loops).foldl
        (fun s j => s + (matrix.getD j []).getD i 0) st.2
      (st.1.set i (sum / (num_loops : F)), 0))
    (List.replicate time_steps 0, 0)).1

end Mean

/-! ## `rand_gen` and `run_black_scholes_model` -/

section Path

variable {F : Type} [Field F]

/-- The random generator as the program sees it: the value returned by the
`k`-th call of `rand_gen`, given the mean and standard deviation passed. -/
abbrev RandomSource (F : Type) := Nat → F → F → F

/-- The function `rand_gen`, as the `k`-th call made by the program. -/
def rand_gen (rng : RandomSource F) (k : Nat) (mean std_dev : F) : F :=
  rng k mean std_dev

/-- The function `run_black_scholes_model`, entered when `k` calls of
`rand_gen` have been made.  `norm_rand` has `time_steps - 1` entries and
`stock_price` has `time_steps`; the first loop fills `norm_rand` with
`time_steps - 1` draws, the second applies the recurrence. -/
def run_black_scholes_model (exp sqrtf : F → F) (rng : RandomSource F) (k : Nat)
    (spot_price : F) (time_steps : Int) (risk_rate volatility : F) :
    Except Fault (List F) :=
  let mean : F := 0
  let std_dev : F := 1
  let deltaT : F := 1 / (time_steps : F)
  if time_steps - 1 < 0 then .error .badAlloc
  else
    let n : Nat := (time_steps - 1).toNat
    let norm_rand : List F := List.replicate n 0
    let stock_price : List F := List.replicate time_steps.toNat 0
    let stock_price := stock_price.set 0 spot_price
    let norm_rand := (List.range n).foldl
      (fun a i => a.set i (rand_gen rng (k + i) mean std_dev)) norm_rand
    let stock_price := (List.range n).foldl
      (fun sp i => sp.set (i + 1)
        (sp.getD i 0 * exp ((risk_rate - volatility ^ 2 / 2) * deltaT
          + volatility * norm_rand.getD i 0 * sqrtf deltaT)))
      stock_price
    .ok stock_price

/-- The array write `a[i] = v`, with the index tested against the length. -/
def write_at (a : List F) (i : Nat) (v : F) : Except Fault (List F) :=
  if i < a.length then .ok (a.set i v) else .error (.outOfBounds i a.length)

/-- The array read `a[i]`, with the index tested against the length. -/
def read_at (a : List F) (i : Nat) : Except Fault F :=
  if i < a.length then .ok (a.getD i 0) else .error (.outOfBounds i a.length)

/-- The function `run_black_scholes_model` with every array access tested
against the allocated length: the write of `stock_price[0]`, the writes of
`norm_rand[i]` in the first loop, and in the second loop the reads of
`stock_price[i]` and `norm_rand[i]` and the write of `stock_price[i + 1]`. -/
def run_black_scholes_model_checked (exp sqrtf : F → F) (rng : RandomSource F) (k : Nat)
    (spot_price : F) (time_steps : Int) (risk_rate volatility : F) :
    Except Fault (List F) :=
  let mean : F := 0
  let std_dev : F := 1
  let deltaT : F := 1 / (time_steps : F)
  if time_steps - 1 < 0 then .error .badAlloc
  else
    let n : Nat := (time_steps - 1).toNat
    let norm_rand : List F := List.replicate n 0
    let stock_price : List F := List.replicate time_steps.toNat 0
    match write_at stock_price 0 spot_price with
    | .error e => .error e
    | .ok stock_price =>
      match (List.range n).foldlM
          (fun a i => write_at a i (rand_gen rng (k + i) mean std_dev)) norm_rand with
      | .error e => .error e
      | .ok norm_rand =>
        (List.range n).foldlM
          (fun sp i =>
            match read_at sp i with
            | .error e => .error e
            | .ok p =>
              match read_at norm_rand i with
              | .error e => .error e
              | .ok z =>
                write_at sp (i + 1)
                  (p * exp ((risk_rate - volatility ^ 2 / 2) * deltaT
                    + volatility * z * sqrtf deltaT)))
          stock_price

/-- The price reached after `i` steps that multiply by `g 0`, ..., `g (i - 1)`. -/
def growth (spot_price : F) (g : Nat → F) : Nat → F
  | 0 => spot_price
  | i + 1 => growth spot_price g i * g i

end Path

/-! ## `main` -/

section Main

variable {F : Type} [Field F]

/-- The inner loop of `main` (lines 169 and 170) in outer iteration `i`: the
`in_loops` simulated paths `stock[0]`, ..., `stock[in_loops - 1]`.  Each call
of `run_black_scholes_model` makes `time_steps - 1` calls of `rand_gen`, so
the call for outer index `i` and inner index `j` starts at draw
`(i * in_loops + j) * (time_steps - 1)`. -/
def simulate_inner (exp sqrtf : F → F) (rng : RandomSource F) (in_loops : Nat)
    (time_steps : Int) (risk_rate spot_price volatility : F) (i : Nat) :
    Except Fault (List (List F)) :=
  (List.range in_loops).mapM (fun j =>
    run_black_scholes_model exp sqrtf rng
      ((i * in_loops + j) * (time_steps - 1).toNat)
      spot_price time_steps risk_rate volatility)

/-- One iteration of the outer loop of `main` (lines 165 to 174): the entry
`avg_stock[i]`, the mean of the paths of the inner loop. -/
def simulate_outer (exp sqrtf : F → F) (rng : RandomSource F) (in_loops : Nat)
    (time_steps : Int) (risk_rate spot_price volatility : F) (i : Nat) :
    Except Fault (List F) :=
  match simulate_inner exp sqrtf rng in_loops time_steps risk_rate spot_price volatility i with
  | .error e => .error e
  | .ok stock => .ok (find_2d_mean stock in_loops time_steps.toNat)

/-- Lines 165 to 177 of `main`, with the constants of `main` as parameters:
the outer loop fills `avg_stock`, and `opt_stock` is the mean of its rows. -/
def simulate (exp sqrtf : F → F) (rng : RandomSource F) (in_loops out_loops : Nat)
    (time_steps : Int) (risk_rate spot_price volatility : F) : Except Fault (List F) :=
  match (List.range out_loops).mapM
      (simulate_outer exp sqrtf rng in_loops time_steps risk_rate spot_price volatility) with
  | .error e => .error e
  | .ok avg_stock => .ok (find_2d_mean avg_stock out_loops time_steps.toNat)

/-- The function `main`, with its constants as parameters: the values written
to `opt.csv`, one per line.  `output_opens` tells whether `opt.csv` can be
opened for writing. -/
def main (exp sqrtf : F → F) (data : DataSource) (rng : RandomSource F)
    (output_opens : Bool) (in_loops out_loops : Nat) (time_steps : Int)
    (risk_rate spot_price : F) : Except Fault (List F) :=
  if time_steps < 0 then .error .badAlloc
  else
    match calculate_volatility sqrtf data spot_price time_steps with
    | .error e => .error e
    | .ok volatility =>
      match simulate exp sqrtf rng in_loops out_loops time_steps risk_rate spot_price
          volatility with
      | .error e => .error e
      | .ok opt_stock => if output_opens then .ok opt_stock else .error .exitFailure

end Main


/-! # Verification

## Loops over index ranges -/

section Loops

variable {α β : Type}

/-- A counted loop run for one more iteration. -/
theorem foldl_range_succ (f : β → Nat → β) (b : β) (m : Nat) :
    (List.range (m + 1)).foldl f b = f ((List.range m).foldl f b) m := by
  rw [List.range_succ, List.foldl_append]
  rfl

/-- A loop that adds `g i` to an accumulator computes a list sum. -/
theorem foldl_range_add {F : Type} [Field F] (g : Nat → F) (a : F) (m : Nat) :
    (List.range m).foldl (fun s i => s + g i) a = a + ((List.range m).map g).sum := by
  induction m with
  | zero => simp
  | succ m ih =>
    rw [foldl_range_succ, ih, List.range_succ, List.map_append, List.sum_append]
    simp [add_assoc]

/-- Writing at the first index after a filled part of a buffer. -/
theorem set_filled (l : List α) (z v : α) (r i : Nat) (hi : l.length = i) :
    (l ++ List.replicate (r + 1) z).set i v = (l ++ [v]) ++ List.replicate r z := by
  subst hi
  rw [List.set_append_right _ _ (Nat.le_refl _)]
  simp [List.replicate_succ]

/-- A loop that writes `f i` at index `i` fills a buffer from the front. -/
theorem foldl_set_range (f : Nat → α) (z : α) (n m : Nat) (h : m ≤ n) :
    (List.range m).foldl (fun a i => a.set i (f i)) (List.replicate n z)
      = (List.range m).map f ++ List.replicate (n - m) z := by
  induction m with
  | zero => simp
  | succ m ih =>
    rw [foldl_range_succ, ih (by omega)]
    have hr : n - m = (n - (m + 1)) + 1 := by omega
    rw [hr, set_filled _ _ _ _ _ (by simp), List.range_succ, List.map_append]
    rfl

/-- Reading index `i` of a buffer whose front part is `(List.range m).map f`. -/
theorem getD_map_range_append (f : Nat → α) (d : α) (m i : Nat) (l : List α) (h : i < m) :
    ((List.range m).map f ++ l).getD i d = f i := by
  rw [List.getD_eq_getElem?_getD, List.getElem?_append_left (by simpa using h)]
  simp [List.getElem?_range h]

/-- Mapping over a list is mapping over its indices. -/
theorem map_eq_map_range_getD (f : α → β) (d : α) (l : List α) :
    l.map f = (List.range l.length).map (fun j => f (l.getD j d)) := by
  apply List.ext_getElem
  · simp
  · intro i h₁ h₂
    simp only [List.length_map, List.length_range] at h₂
    simp [List.getD_eq_getElem?_getD, List.getElem?_eq_getElem h₂]

/-- Entry `i` of a list given by a function of the index. -/
theorem getElem?_map_range (f : Nat → α) (n i : Nat) (h : i < n) :
    ((List.range n).map f)[i]? = some (f i) := by
  simp [List.getElem?_range h]

/-- A `mapM` all of whose calls return collects the returned values. -/
theorem mapM_ok (g : α → Except Fault β) (f : α → β) (l : List α)
    (h : ∀ a, a ∈ l → g a = .ok (f a)) : l.mapM g = .ok (l.map f) := by
  induction l with
  | nil => rfl
  | cons a l ih =>
    rw [List.mapM_cons, h a (List.mem_cons_self a l),
      ih (fun b hb => h b (List.mem_cons_of_mem a hb))]
    rfl

/-- A counted loop whose body returns at every state it reaches computes what
the loop over the returned states computes. -/
theorem foldlM_range_ok (f : β → Nat → Except Fault β) (g : β → Nat → β) (init : β)
    (n : Nat)
    (h : ∀ m, m < n →
      f ((List.range m).foldl g init) m = .ok (g ((List.range m).foldl g init) m)) :
    (List.range n).foldlM f init = .ok ((List.range n).foldl g init) := by
  induction n with
  | zero => rfl
  | succ n ih =>
    rw [List.range_succ, List.foldlM_append, ih (fun m hm => h m (by omega)),
      List.foldl_append]
    simp only [bind, Except.bind, List.foldlM_cons, List.foldlM_nil, List.foldl_cons,
      List.foldl_nil]
    rw [h n (by omega)]
    rfl

end Loops

/-! ## Closed forms of the three functions -/

section ClosedForms

variable {F : Type} [Field F]

/-- The recurrence depends on the multipliers used so far only. -/
theorem growth_congr (spot_price : F) (g h : Nat → F) (i : Nat)
    (hgh : ∀ j, j < i → g j = h j) : growth spot_price g i = growth spot_price h i := by
  induction i with
  | zero => rfl
  | succ i ih =>
    simp only [growth]
    rw [ih (fun j hj => hgh j (by omega)), hgh i (by omega)]

/-- The price loop of `run_black_scholes_model` after `m` iterations. -/
theorem foldl_growth (g : Nat → F) (spot_price : F) (n m : Nat) (h : m ≤ n) :
    (List.range m).foldl (fun sp i => sp.set (i + 1) (sp.getD i 0 * g i))
        ((List.replicate (n + 1) (0 : F)).set 0 spot_price)
      = (List.range (m + 1)).map (growth spot_price g) ++ List.replicate (n - m) 0 := by
  induction m with
  | zero => simp [List.replicate_succ, growth, List.range_succ]
  | succ m ih =>
    rw [foldl_range_succ, ih (by omega)]
    have hr : n - m = (n - (m + 1)) + 1 := by omega
    rw [getD_map_range_append _ _ _ _ _ (by omega), hr,
      set_filled _ _ _ _ _ (by simp), List.range_succ (m + 1), List.map_append]
    rfl

/-- The column loop of `find_2d_mean` after `m` iterations: the running sum is
back at 0 and the first `m` entries hold the column means. -/
theorem foldl_columns (col : F → Nat → F) (c : F) (n m : Nat) (h : m ≤ n) :
    (List.range m).foldl
        (fun (st : List F × F) i => (st.1.set i (col st.2 i / c), (0 : F)))
        (List.replicate n 0, 0)
      = ((List.range m).map (fun i => col 0 i / c) ++ List.replicate (n - m) 0, 0) := by
  induction m with
  | zero => simp
  | succ m ih =>
    rw [foldl_range_succ, ih (by omega)]
    have hr : n - m = (n - (m + 1)) + 1 := by omega
    simp only
    rw [hr, set_filled _ _ _ _ _ (by simp), List.range_succ, List.map_append]
    rfl

/-- Closed form of `find_2d_mean`: entry `t` is the sum of the first
`num_loops` rows at column `t`, divided by `num_loops`. -/
theorem find_2d_mean_eq (matrix : List (List F)) (num_loops time_steps : Nat) :
    find_2d_mean matrix num_loops time_steps
      = (List.range time_steps).map (fun t =>
          ((List.range num_loops).map (fun j => (matrix.getD j []).getD t 0)).sum
            / (num_loops : F)) := by
  unfold find_2d_mean
  rw [foldl_columns (fun s i => (List.range num_loops).foldl
    (fun s j => s + (matrix.getD j []).getD i 0) s) (num_loops : F) time_steps time_steps
    (Nat.le_refl _)]
  simp [foldl_range_add]

/-- Closed form of `find_2d_mean` on a matrix of exactly `num_loops` rows. -/
theorem find_2d_mean_rows (matrix : List (List F)) (time_steps : Nat) :
    find_2d_mean matrix matrix.length time_steps
      = (List.range time_steps).map (fun t =>
          (matrix.map (fun row => row.getD t 0)).sum / (matrix.length : F)) := by
  rw [find_2d_mean_eq]
  apply List.map_congr_left
  intro t _
  rw [map_eq_map_range_getD (fun row : List F => row.getD t 0) [] matrix]

/-- Closed form of `run_black_scholes_model` for `time_steps ≥ 1`. -/
theorem run_black_scholes_model_eq (exp sqrtf : F → F) (rng : RandomSource F) (k : Nat)
    (spot_price : F) (time_steps : Int) (risk_rate volatility : F) (h : 1 ≤ time_steps) :
    run_black_scholes_model exp sqrtf rng k spot_price time_steps risk_rate volatility
      = .ok ((List.range time_steps.toNat).map (growth spot_price (fun i =>
          exp ((risk_rate - volatility ^ 2 / 2) * (1 / (time_steps : F))
            + volatility * rand_gen rng (k + i) 0 1 * sqrtf (1 / (time_steps : F)))))) := by
  obtain ⟨n, rfl⟩ : ∃ n : Nat, time_steps = (n : Int) + 1 := ⟨(time_steps - 1).toNat, by omega⟩
  have h1 : ¬ ((n : Int) + 1 - 1 < 0) := by omega
  have h2 : ((n : Int) + 1 - 1).toNat = n := by omega
  have h3 : ((n : Int) + 1).toNat = n + 1 := by omega
  unfold run_black_scholes_model
  simp only [h1, if_false, h2, h3]
  rw [foldl_set_range _ _ _ _ (Nat.le_refl n), foldl_growth _ _ _ _ (Nat.le_refl n)]
  simp only [Nat.sub_self, List.replicate_zero, List.append_nil]
  congr 1
  apply List.map_congr_left
  intro i hi
  apply growth_congr
  intro j hj
  have hjn : j < n := by
    have := List.mem_range.mp hi
    omega
  have hz : ((List.range n).map (fun i => rand_gen rng (k + i) (0 : F) 1)).getD j 0
      = rand_gen rng (k + j) 0 1 := by
    have := getD_map_range_append (fun i => rand_gen rng (k + i) (0 : F) 1) 0 n j [] hjn
    simpa using this
  rw [hz]

/-- The fill loop of `calculate_volatility` on tokens that all convert and
fit in the zeroed rest of the buffer. -/
theorem foldlM_store_token (tokens : List (List Char)) (ds : List Decimal)
    (hparse : tokens.map stof = ds.map Except.ok) (pre : List F) (r : Nat)
    (hlen : ds.length ≤ r) :
    tokens.foldlM store_token (pre.length, pre ++ List.replicate r (0 : F))
      = .ok (pre.length + ds.length,
          pre ++ ds.map Decimal.value ++ List.replicate (r - ds.length) 0) := by
  induction tokens generalizing ds pre r with
  | nil =>
    cases ds with
    | nil => simp [pure, Except.pure]
    | cons d ds => simp at hparse
  | cons t ts ih =>
    cases ds with
    | nil => simp at hparse
    | cons d ds =>
      simp only [List.map_cons, List.cons.injEq] at hparse
      simp only [List.length_cons] at hlen
      obtain ⟨r, rfl⟩ : ∃ q, r = q + 1 := ⟨r - 1, by omega⟩
      have hstep : store_token (pre.length, pre ++ List.replicate (r + 1) (0 : F)) t
          = .ok ((pre ++ [d.value]).length, (pre ++ [d.value]) ++ List.replicate r 0) := by
        unfold store_token
        rw [hparse.1]
        simp only [List.length_append, List.length_replicate]
        rw [if_pos (by omega), set_filled _ _ _ _ _ rfl]
        simp
      rw [List.foldlM_cons, hstep]
      simp only [bind, Except.bind]
      rw [ih ds hparse.2 (pre ++ [d.value]) r (by omega)]
      simp [Nat.add_comm, Nat.add_left_comm]

/-- Closed form of `read_prices`: the converted tokens, then zeros up to `len`. -/
theorem read_prices_eq (line : List Char) (ds : List Decimal) (len : Nat)
    (hparse : (getline_tokens line).map stof = ds.map Except.ok) (hlen : ds.length ≤ len) :
    (read_prices line len : Except Fault (List F))
      = .ok (ds.map Decimal.value ++ List.replicate (len - ds.length) 0) := by
  unfold read_prices
  have := foldlM_store_token (getline_tokens line) ds hparse ([] : List F) len hlen
  simp only [List.length_nil, List.nil_append] at this
  rw [this]

/-- The mean loop on a buffer of `len` entries. -/
theorem mean_price_eq (spot_price : F) (priceArr : List F) :
    mean_price spot_price priceArr.length priceArr
      = (spot_price + priceArr.sum) / ((priceArr.length : F) + 1) := by
  unfold mean_price
  rw [foldl_range_add, ← map_eq_map_range_getD (fun x : F => x) 0 priceArr]
  simp

/-- The deviation loop on a buffer of `len` entries. -/
theorem sum_sq_dev_eq (spot_price mean : F) (priceArr : List F) :
    sum_sq_dev spot_price priceArr.length priceArr mean
      = (spot_price - mean) ^ 2 + (priceArr.map (fun p => (p - mean) ^ 2)).sum := by
  unfold sum_sq_dev
  rw [foldl_range_add, ← map_eq_map_range_getD (fun p : F => (p - mean) ^ 2) 0 priceArr]

/-- Closed form of `volatility_of_line` on a line of at most `time_steps - 1`
tokens that all convert. -/
theorem volatility_of_line_eq (sqrtf : F → F) (line : List Char) (ds : List Decimal)
    (spot_price : F) (time_steps : Int)
    (hparse : (getline_tokens line).map stof = ds.map Except.ok)
    (hlen : (ds.length : Int) ≤ time_steps - 1) :
    volatility_of_line sqrtf line spot_price time_steps
      = .ok (sqrtf (spec_sum_sq spot_price
          (ds.map Decimal.value ++ List.replicate ((time_steps - 1).toNat - ds.length) 0))
          / 100) := by
  have h1 : ¬ (time_steps - 1 < 0) := by omega
  have h2 : ds.length ≤ (time_steps - 1).toNat := by omega
  unfold volatility_of_line
  simp only [h1, if_false]
  rw [read_prices_eq line ds _ hparse h2]
  simp only
  have hL : (ds.map (Decimal.value : Decimal → F)
      ++ List.replicate ((time_steps - 1).toNat - ds.length) 0).length
      = (time_steps - 1).toNat := by
    simp only [List.length_append, List.length_map, List.length_replicate]
    omega
  have hm := mean_price_eq spot_price (ds.map (Decimal.value : Decimal → F)
      ++ List.replicate ((time_steps - 1).toNat - ds.length) 0)
  have hs := sum_sq_dev_eq spot_price (spec_mean spot_price (ds.map (Decimal.value : Decimal → F)
      ++ List.replicate ((time_steps - 1).toNat - ds.length) 0)) (ds.map (Decimal.value : Decimal → F)
      ++ List.replicate ((time_steps - 1).toNat - ds.length) 0)
  rw [hL] at hm hs
  rw [hm]
  unfold spec_mean at hs
  rw [hL] at hs
  rw [hs]
  unfold spec_sum_sq spec_mean
  rw [hL]

/-- Reading entry `t` of the result of `find_2d_mean` on exactly `num_loops`
rows. -/
theorem find_2d_mean_getD (matrix : List (List F)) (time_steps t : Nat) (h : t < time_steps) :
    (find_2d_mean matrix matrix.length time_steps).getD t 0
      = (matrix.map (fun row => row.getD t 0)).sum / (matrix.length : F) := by
  rw [find_2d_mean_rows]
  have := getD_map_range_append (fun t => (matrix.map (fun row : List F => row.getD t 0)).sum
    / (matrix.length : F)) 0 time_steps t [] h
  simpa using this

/-- The mean of a single trajectory is that trajectory. -/
theorem find_2d_mean_single (T : List F) : find_2d_mean [T] 1 T.length = T := by
  have := find_2d_mean_rows [T] T.length
  simp only [List.length_singleton] at this
  rw [this]
  apply List.ext_getElem
  · simp
  · intro i h₁ h₂
    simp [List.getD_eq_getElem?_getD, List.getElem?_eq_getElem h₂]

/-- A list sum of quotients by one divisor. -/
theorem sum_map_div (l : List α) (f : α → F) (c : F) :
    (l.map (fun a => f a / c)).sum = (l.map f).sum / c := by
  simp only [div_eq_mul_inv]
  exact List.sum_map_mul_right l f c⁻¹

/-- Closed form of lines 165 to 177 of `main` for one inner and one outer
iteration: the single simulated path. -/
theorem simulate_one_one (exp sqrtf : F → F) (rng : RandomSource F) (time_steps : Int)
    (risk_rate spot_price volatility : F) (h : 1 ≤ time_steps) :
    simulate exp sqrtf rng 1 1 time_steps risk_rate spot_price volatility
      = run_black_scholes_model exp sqrtf rng 0 spot_price time_steps risk_rate volatility := by
  have hp := run_black_scholes_model_eq exp sqrtf rng 0 spot_price time_steps risk_rate
    volatility h
  have hin : simulate_inner exp sqrtf rng 1 time_steps risk_rate spot_price volatility 0
      = .ok [(List.range time_steps.toNat).map (growth spot_price (fun i =>
          exp ((risk_rate - volatility ^ 2 / 2) * (1 / (time_steps : F))
            + volatility * rand_gen rng (0 + i) 0 1 * sqrtf (1 / (time_steps : F)))))] := by
    unfold simulate_inner
    rw [mapM_ok _ (fun _ => (List.range time_steps.toNat).map (growth spot_price (fun i =>
          exp ((risk_rate - volatility ^ 2 / 2) * (1 / (time_steps : F))
            + volatility * rand_gen rng (0 + i) 0 1 * sqrtf (1 / (time_steps : F))))))]
    · rfl
    · intro j hj
      have hj0 : j = 0 := by simpa using hj
      subst hj0
      simpa using hp
  have hsingle := find_2d_mean_single ((List.range time_steps.toNat).map (growth spot_price
      (fun i => exp ((risk_rate - volatility ^ 2 / 2) * (1 / (time_steps : F))
        + volatility * rand_gen rng (0 + i) 0 1 * sqrtf (1 / (time_steps : F))))))
  simp only [List.length_map, List.length_range] at hsingle
  have hout : simulate_outer exp sqrtf rng 1 time_steps risk_rate spot_price volatility 0
      = .ok ((List.range time_steps.toNat).map (growth spot_price (fun i =>
          exp ((risk_rate - volatility ^ 2 / 2) * (1 / (time_steps : F))
            + volatility * rand_gen rng (0 + i) 0 1 * sqrtf (1 / (time_steps : F)))))) := by
    unfold simulate_outer
    rw [hin]
    simp only
    rw [hsingle]
  unfold simulate
  rw [mapM_ok _ (fun _ => (List.range time_steps.toNat).map (growth spot_price (fun i =>
          exp ((risk_rate - volatility ^ 2 / 2) * (1 / (time_steps : F))
            + volatility * rand_gen rng (0 + i) 0 1 * sqrtf (1 / (time_steps : F))))))]
  · have hr1 : List.range 1 = [0] := rfl
    simp only [hr1, List.map_cons, List.map_nil]
    rw [hsingle, hp]
  · intro i hi
    have hi0 : i = 0 := by simpa using hi
    subst hi0
    exact hout

/-- Reading the first line of a source that holds `line`, a line feed and
anything after it. -/
theorem getline_first_line (line rest : List Char) (h : '\n' ∉ line) :
    getline_first (line ++ '\n' :: rest) = some line := by
  have htake : (line ++ '\n' :: rest).takeWhile (fun d => d ≠ '\n') = line := by
    rw [List.takeWhile_append_of_pos]
    · simp
    · intro a ha
      have : a ≠ '\n' := fun hc => h (hc ▸ ha)
      simpa using this
  cases hl : line ++ '\n' :: rest with
  | nil => simp at hl
  | cons c cs =>
    rw [hl] at htake
    simp only [getline_first]
    rw [htake]

/-- The fill loop of `calculate_volatility` on tokens that all convert but do
not fit in the zeroed rest of the buffer: the write at the length of the
buffer is out of bounds. -/
theorem foldlM_store_token_overflow (tokens : List (List Char)) (ds : List Decimal)
    (hparse : tokens.map stof = ds.map Except.ok) (pre : List F) (r : Nat)
    (hlen : r < ds.length) :
    tokens.foldlM store_token (pre.length, pre ++ List.replicate r (0 : F))
      = .error (.outOfBounds (pre.length + r) (pre.length + r)) := by
  induction tokens generalizing ds pre r with
  | nil =>
    cases ds with
    | nil => simp at hlen
    | cons d ds => simp at hparse
  | cons t ts ih =>
    cases ds with
    | nil => simp at hparse
    | cons d ds =>
      simp only [List.map_cons, List.cons.injEq] at hparse
      simp only [List.length_cons] at hlen
      cases r with
      | zero =>
        have hstep : store_token (pre.length, pre ++ List.replicate 0 (0 : F)) t
            = .error (.outOfBounds (pre.length + 0) (pre.length + 0)) := by
          unfold store_token
          rw [hparse.1]
          simp
        rw [List.foldlM_cons, hstep]
        rfl
      | succ r =>
        have hstep : store_token (pre.length, pre ++ List.replicate (r + 1) (0 : F)) t
            = .ok ((pre ++ [d.value]).length, (pre ++ [d.value]) ++ List.replicate r 0) := by
          unfold store_token
          rw [hparse.1]
          simp only [List.length_append, List.length_replicate]
          rw [if_pos (by omega), set_filled _ _ _ _ _ rfl]
          simp
        rw [List.foldlM_cons, hstep]
        simp only [bind, Except.bind]
        rw [ih ds hparse.2 (pre ++ [d.value]) r (by omega)]
        simp [Nat.add_comm, Nat.add_left_comm]

/-- A line with more convertible tokens than `len` makes `read_prices` write
out of bounds at index `len`. -/
theorem read_prices_overflow (line : List Char) (ds : List Decimal) (len : Nat)
    (hparse : (getline_tokens line).map stof = ds.map Except.ok) (hlen : len < ds.length) :
    (read_prices line len : Except Fault (List F)) = .error (.outOfBounds len len) := by
  unfold read_prices
  have := foldlM_store_token_overflow (getline_tokens line) ds hparse ([] : List F) len hlen
  simp only [List.length_nil, List.nil_append, Nat.zero_add] at this
  rw [this]

/-- The range test of `stof` does not touch the buffer. -/
theorem in_float_range_ne_outOfBounds (d : Decimal) (i n : Nat) :
    in_float_range d ≠ .error (.outOfBounds i n) := by
  unfold in_float_range
  split <;> simp

/-- The faults of `stof_unsigned` are conversion faults. -/
theorem stof_unsigned_ne_outOfBounds (neg : Bool) (s : List Char) (i n : Nat) :
    stof_unsigned neg s ≠ .error (.outOfBounds i n) := by
  unfold stof_unsigned
  split
  · simp
  · split
    · dsimp only
      split <;> exact in_float_range_ne_outOfBounds _ _ _
    · dsimp only
      split
      · split
        · simp
        · exact in_float_range_ne_outOfBounds _ _ _
      · split
        · simp
        · exact in_float_range_ne_outOfBounds _ _ _

/-- The faults of `stof` are conversion faults. -/
theorem stof_ne_outOfBounds (s : List Char) (i n : Nat) :
    stof s ≠ .error (.outOfBounds i n) := by
  induction s with
  | nil => simp [stof]
  | cons c cs ih =>
    unfold stof
    split
    · exact ih
    · split
      · exact stof_unsigned_ne_outOfBounds _ _ _ _
      · split <;> exact stof_unsigned_ne_outOfBounds _ _ _ _

/-- The fill loop of `calculate_volatility` on tokens, convertible or not,
that are no more than the free entries of the buffer: no write is out of
bounds. -/
theorem foldlM_store_token_fits (tokens : List (List Char)) (st : Nat × List F)
    (h : st.1 + tokens.length ≤ st.2.length) (i n : Nat) :
    tokens.foldlM store_token st ≠ .error (.outOfBounds i n) := by
  induction tokens generalizing st with
  | nil => simp [pure, Except.pure]
  | cons t ts ih =>
    simp only [List.length_cons] at h
    rw [List.foldlM_cons]
    cases hst : stof t with
    | error e =>
      have hstep : store_token st t = .error e := by
        unfold store_token
        rw [hst]
      rw [hstep]
      intro hc
      have he : e = .outOfBounds i n := by
        simpa [bind, Except.bind] using hc
      exact stof_ne_outOfBounds t i n (hst.trans (by rw [he]))
    | ok d =>
      have hstep : store_token st t = .ok (st.1 + 1, st.2.set st.1 d.value) := by
        unfold store_token
        rw [hst]
        simp only
        rw [if_pos (by omega)]
      rw [hstep]
      simp only [bind, Except.bind]
      exact ih (st.1 + 1, st.2.set st.1 d.value) (by simp only [List.length_set]; omega)

/-- A line of at most `len` tokens never makes `read_prices` write out of
bounds. -/
theorem read_prices_fits (line : List Char) (len : Nat)
    (h : (getline_tokens line).length ≤ len) (i n : Nat) :
    (read_prices line len : Except Fault (List F)) ≠ .error (.outOfBounds i n) := by
  unfold read_prices
  have hfit := foldlM_store_token_fits (getline_tokens line) (0, List.replicate len (0 : F))
    (by simpa using h) i n
  cases hr : (getline_tokens line).foldlM store_token (0, List.replicate len (0 : F)) with
  | error e =>
    rw [hr] at hfit
    simpa using hfit
  | ok filled => simp

/-- A line with more than `len` tokens, the first `len + 1` of which convert,
makes `read_prices` write out of bounds at index `len`. -/
theorem read_prices_overflow_first (line : List Char) (ds : List Decimal) (len : Nat)
    (hparse : ((getline_tokens line).take (len + 1)).map stof = ds.map Except.ok)
    (hlen : len < (getline_tokens line).length) :
    (read_prices line len : Except Fault (List F)) = .error (.outOfBounds len len) := by
  have hds : len < ds.length := by
    have := congrArg List.length hparse
    simp only [List.length_map, List.length_take] at this
    omega
  have h := foldlM_store_token_overflow ((getline_tokens line).take (len + 1)) ds hparse
    ([] : List F) len hds
  simp only [List.length_nil, List.nil_append, Nat.zero_add] at h
  unfold read_prices
  rw [← List.take_append_drop (len + 1) (getline_tokens line), List.foldlM_append, h]
  rfl

/-- A sum of squared deviations is not negative. -/
theorem sum_sq_nonneg (m : ℝ) (l : List ℝ) : 0 ≤ (l.map (fun p => (p - m) ^ 2)).sum := by
  apply List.sum_nonneg
  intro x hx
  obtain ⟨p, _, rfl⟩ := List.mem_map.mp hx
  exact sq_nonneg _

/-- A sum of squared deviations from `m` vanishes exactly when every entry
is `m`. -/
theorem sum_sq_eq_zero_iff (m : ℝ) (l : List ℝ) :
    (l.map (fun p => (p - m) ^ 2)).sum = 0 ↔ ∀ p, p ∈ l → p = m := by
  induction l with
  | nil => simp
  | cons a l ih =>
    simp only [List.map_cons, List.sum_cons, List.mem_cons, forall_eq_or_imp]
    rw [add_eq_zero_iff_of_nonneg (sq_nonneg _) (sum_sq_nonneg m l), ih]
    constructor
    · rintro ⟨ha, hl⟩
      exact ⟨by nlinarith [sq_nonneg (a - m)], hl⟩
    · rintro ⟨ha, hl⟩
      exact ⟨by rw [ha]; ring, hl⟩

/-- The mean of the spot price and of prices all equal to it. -/
theorem spec_mean_const (spot_price : ℝ) (prices : List ℝ)
    (h : ∀ p, p ∈ prices → p = spot_price) : spec_mean spot_price prices = spot_price := by
  unfold spec_mean
  rw [List.sum_eq_card_nsmul prices spot_price h]
  have hpos : (0 : ℝ) < (prices.length : ℝ) + 1 := by positivity
  field_simp
  ring

/-- The sum of squared deviations of the specification is not negative. -/
theorem spec_sum_sq_nonneg (spot_price : ℝ) (prices : List ℝ) :
    0 ≤ spec_sum_sq spot_price prices :=
  add_nonneg (sq_nonneg _) (sum_sq_nonneg _ prices)

/-- The sum of squared deviations of the specification vanishes exactly when
every price is the spot price. -/
theorem spec_sum_sq_eq_zero_iff (spot_price : ℝ) (prices : List ℝ) :
    spec_sum_sq spot_price prices = 0 ↔ ∀ p, p ∈ prices → p = spot_price := by
  unfold spec_sum_sq
  rw [add_eq_zero_iff_of_nonneg (sq_nonneg _) (sum_sq_nonneg _ prices), sum_sq_eq_zero_iff]
  constructor
  · rintro ⟨hs, hl⟩ p hp
    have hm : spot_price = spec_mean spot_price prices := by
      nlinarith [sq_nonneg (spot_price - spec_mean spot_price prices)]
    rw [hl p hp, ← hm]
  · intro h
    rw [spec_mean_const spot_price prices h]
    exact ⟨by ring, h⟩

/-- The result of `find_2d_mean` has `time_steps` entries. -/
theorem find_2d_mean_length (matrix : List (List F)) (num_loops time_steps : Nat) :
    (find_2d_mean matrix num_loops time_steps).length = time_steps := by
  rw [find_2d_mean_eq]
  simp

/-- The mean of a column whose entries are all `x` is `x`, when the number of
rows is not zero in `F`. -/
theorem find_2d_mean_const_column (matrix : List (List F)) (time_steps t : Nat) (x : F)
    (hc : (matrix.length : F) ≠ 0) (ht : t < time_steps)
    (hx : ∀ row, row ∈ matrix → row.getD t 0 = x) :
    (find_2d_mean matrix matrix.length time_steps).getD t 0 = x := by
  rw [find_2d_mean_getD matrix time_steps t ht,
    List.sum_eq_card_nsmul (matrix.map (fun row => row.getD t 0)) x]
  · rw [List.length_map, nsmul_eq_mul]
    field_simp
  · intro y hy
    obtain ⟨row, hrow, rfl⟩ := List.mem_map.mp hy
    exact hx row hrow

/-- Closed form of lines 165 to 177 of `main` when every call of
`run_black_scholes_model` returns: the mean over the outer iterations of the
means over the inner iterations. -/
theorem simulate_eq_of_paths (exp sqrtf : F → F) (rng : RandomSource F)
    (in_loops out_loops : Nat) (time_steps : Int) (risk_rate spot_price volatility : F)
    (paths : Nat → Nat → List F)
    (hp : ∀ i j, run_black_scholes_model exp sqrtf rng
        ((i * in_loops + j) * (time_steps - 1).toNat) spot_price time_steps risk_rate
        volatility = .ok (paths i j)) :
    simulate exp sqrtf rng in_loops out_loops time_steps risk_rate spot_price volatility
      = .ok (find_2d_mean ((List.range out_loops).map (fun i =>
          find_2d_mean ((List.range in_loops).map (paths i)) in_loops time_steps.toNat))
          out_loops time_steps.toNat) := by
  have hin : ∀ i, simulate_inner exp sqrtf rng in_loops time_steps risk_rate spot_price
      volatility i = .ok ((List.range in_loops).map (paths i)) := by
    intro i
    unfold simulate_inner
    exact mapM_ok _ (paths i) _ (fun j _ => hp i j)
  have hout : ∀ i, simulate_outer exp sqrtf rng in_loops time_steps risk_rate spot_price
      volatility i = .ok (find_2d_mean ((List.range in_loops).map (paths i)) in_loops
        time_steps.toNat) := by
    intro i
    unfold simulate_outer
    rw [hin i]
  unfold simulate
  rw [mapM_ok _ (fun i => find_2d_mean ((List.range in_loops).map (paths i)) in_loops
    time_steps.toNat) _ (fun i _ => hout i)]

/-- For `time_steps ≥ 1` every array access of `run_black_scholes_model` is
within bounds: the run with tested accesses returns what the function
returns. -/
theorem run_black_scholes_model_checked_eq (exp sqrtf : F → F) (rng : RandomSource F)
    (k : Nat) (spot_price : F) (time_steps : Int) (risk_rate volatility : F)
    (h : 1 ≤ time_steps) :
    run_black_scholes_model_checked exp sqrtf rng k spot_price time_steps risk_rate
        volatility
      = run_black_scholes_model exp sqrtf rng k spot_price time_steps risk_rate
        volatility := by
  obtain ⟨n, rfl⟩ : ∃ n : Nat, time_steps = (n : Int) + 1 := ⟨(time_steps - 1).toNat, by omega⟩
  have h1 : ¬ ((n : Int) + 1 - 1 < 0) := by omega
  have h2 : ((n : Int) + 1 - 1).toNat = n := by omega
  have h3 : ((n : Int) + 1).toNat = n + 1 := by omega
  unfold run_black_scholes_model_checked run_black_scholes_model
  simp only [h1, if_false, h2, h3]
  have hw0 : write_at (List.replicate (n + 1) (0 : F)) 0 spot_price
      = .ok ((List.replicate (n + 1) (0 : F)).set 0 spot_price) := by
    unfold write_at
    rw [if_pos (by simp)]
  have hnr := foldlM_range_ok
    (fun (a : List F) i => write_at a i (rand_gen rng (k + i) 0 1))
    (fun (a : List F) i => a.set i (rand_gen rng (k + i) 0 1))
    (List.replicate n (0 : F)) n (by
      intro m hm
      simp only
      unfold write_at
      rw [if_pos]
      rw [foldl_set_range _ _ _ _ (by omega)]
      simp only [List.length_append, List.length_map, List.length_range,
        List.length_replicate]
      omega)
  rw [hw0]
  simp only
  rw [hnr]
  simp only
  apply foldlM_range_ok
  intro m hm
  have hlen : ((List.range m).foldl
      (fun (sp : List F) i => sp.set (i + 1)
        (sp.getD i 0 * exp ((risk_rate - volatility ^ 2 / 2) * (1 / (((n : Int) + 1 : Int) : F))
          + volatility * ((List.range n).foldl
              (fun (a : List F) i => a.set i (rand_gen rng (k + i) 0 1))
              (List.replicate n 0)).getD i 0 * sqrtf (1 / (((n : Int) + 1 : Int) : F)))))
      ((List.replicate (n + 1) (0 : F)).set 0 spot_price)).length = n + 1 := by
    rw [foldl_growth _ _ _ _ (by omega)]
    simp only [List.length_append, List.length_map, List.length_range, List.length_replicate]
    omega
  have hlen' : ((List.range n).foldl
      (fun (a : List F) i => a.set i (rand_gen rng (k + i) 0 1))
      (List.replicate n 0)).length = n := by
    rw [foldl_set_range _ _ _ _ (Nat.le_refl n)]
    simp
  simp only [read_at, write_at, hlen, hlen']
  rw [if_pos (by omega), if_pos hm]
  simp only
  rw [if_pos (by omega)]

/-- With no rounding, `calculate_volatility_rnd` is `calculate_volatility`. -/
theorem calculate_volatility_rnd_id (sqrtf : F → F) (data : DataSource) (spot_price : F)
    (time_steps : Int) :
    calculate_volatility_rnd (fun x => x) sqrtf data spot_price time_steps
      = calculate_volatility sqrtf data spot_price time_steps :=
  rfl

end ClosedForms

/-! ## The claims -/

section Claims

variable {F : Type} [Field F]

/-- C1: when the first line of the file holds exactly `N = time_steps - 1`
values `p_1 .. p_N` (in particular for every `time_steps ≥ 2`),
`calculate_volatility` returns `sqrt(S) / 100` with
`mean = (spot_price + Σ p_i) / (N + 1)` and
`S = (spot_price - mean)² + Σ (p_i - mean)²`; `S` is not divided by `N`. -/
theorem calculate_volatility_formula (sqrtf : F → F) (content : String) (line : List Char)
    (ds : List Decimal) (spot_price : F) (time_steps : Int)
    (hline : getline_first content.data = some line)
    (hparse : (getline_tokens line).map stof = ds.map Except.ok)
    (hN : (ds.length : Int) = time_steps - 1) :
    calculate_volatility sqrtf (.opened content) spot_price time_steps
      = .ok (sqrtf (spec_sum_sq spot_price (ds.map Decimal.value)) / 100) := by
  unfold calculate_volatility
  simp only [hline]
  rw [volatility_of_line_eq sqrtf line ds spot_price time_steps hparse (by omega)]
  have h0 : (time_steps - 1).toNat - ds.length = 0 := by omega
  rw [h0]
  simp

/-- Witness for C1: the line `1,2` with spot price 3 and `time_steps = 3`. -/
theorem calculate_volatility_formula_witness :
    calculate_volatility Real.sqrt (.opened "1,2") (3 : ℝ) 3
      = .ok (Real.sqrt (spec_sum_sq 3
          ([⟨false, 1, 0⟩, ⟨false, 2, 0⟩].map Decimal.value)) / 100) :=
  calculate_volatility_formula Real.sqrt "1,2" ['1', ',', '2']
    [⟨false, 1, 0⟩, ⟨false, 2, 0⟩] 3 3 rfl rfl (by decide)

/-- C2: for `time_steps ≥ 2` the trajectory returned by
`run_black_scholes_model` satisfies, for every `i` from 0 to `time_steps - 2`,
`trajectory[i+1] = trajectory[i] * exp((risk_rate - volatility² / 2) * deltaT
+ volatility * z_i * sqrt(deltaT))` with `deltaT = 1 / time_steps`, where
`z_i` is the `i`-th draw made by the call. -/
theorem run_black_scholes_model_recurrence (exp sqrtf : F → F) (rng : RandomSource F)
    (k : Nat) (spot_price : F) (time_steps : Int) (risk_rate volatility : F)
    (hts : 2 ≤ time_steps) :
    ∃ trajectory,
      run_black_scholes_model exp sqrtf rng k spot_price time_steps risk_rate volatility
        = .ok trajectory
      ∧ ∀ i : Nat, (i : Int) ≤ time_steps - 2 →
        ∃ a b, trajectory[i]? = some a ∧ trajectory[i + 1]? = some b
          ∧ b = a * exp ((risk_rate - volatility ^ 2 / 2) * (1 / (time_steps : F))
                + volatility * rand_gen rng (k + i) 0 1 * sqrtf (1 / (time_steps : F))) := by
  refine ⟨_, run_black_scholes_model_eq exp sqrtf rng k spot_price time_steps risk_rate
    volatility (by omega), ?_⟩
  intro i hi
  refine ⟨_, _, getElem?_map_range _ _ i (by omega), getElem?_map_range _ _ (i + 1) (by omega),
    rfl⟩

/-- Witness for C2: four time steps over the reals with every draw equal to 1. -/
theorem run_black_scholes_model_recurrence_witness :
    ∃ trajectory,
      run_black_scholes_model Real.exp Real.sqrt (fun _ _ _ => 1) 0 (100 : ℝ) 4 0.001 0.2
        = .ok trajectory
      ∧ ∀ i : Nat, (i : Int) ≤ 4 - 2 →
        ∃ a b, trajectory[i]? = some a ∧ trajectory[i + 1]? = some b
          ∧ b = a * Real.exp ((0.001 - 0.2 ^ 2 / 2) * (1 / ((4 : Int) : ℝ))
                + 0.2 * rand_gen (fun _ _ _ => (1 : ℝ)) (0 + i) 0 1
                  * Real.sqrt (1 / ((4 : Int) : ℝ))) :=
  run_black_scholes_model_recurrence Real.exp Real.sqrt (fun _ _ _ => 1) 0 100 4 0.001 0.2
    (by decide)

/-- C3: for a family of `out_loops` groups of `in_loops` trajectories of
length `time_steps`, averaging each group with `find_2d_mean` and then
averaging the group results with `find_2d_mean`, as `main` does, gives at
every time index the sum of all `in_loops * out_loops` values at that index
divided by `in_loops * out_loops`. -/
theorem two_level_mean_eq_flat_mean (groups : List (List (List F)))
    (in_loops out_loops time_steps : Nat) (_hin : 1 ≤ in_loops) (_hout : 1 ≤ out_loops)
    (hgroups : groups.length = out_loops)
    (hgroup : ∀ g, g ∈ groups → g.length = in_loops)
    (_hlen : ∀ g, g ∈ groups → ∀ traj, traj ∈ g → traj.length = time_steps) :
    ∀ t : Nat, t < time_steps →
      (find_2d_mean (groups.map (fun g => find_2d_mean g in_loops time_steps))
          out_loops time_steps)[t]?
        = some ((groups.flatten.map (fun traj => traj.getD t 0)).sum
            / ((in_loops * out_loops : Nat) : F)) := by
  intro t ht
  have hlen : (groups.map (fun g => find_2d_mean g in_loops time_steps)).length = out_loops := by
    simpa using hgroups
  have h1 := find_2d_mean_rows (groups.map (fun g => find_2d_mean g in_loops time_steps))
    time_steps
  rw [hlen] at h1
  rw [h1, getElem?_map_range _ _ t ht, List.map_map]
  have h2 : groups.map ((fun row : List F => row.getD t 0)
        ∘ (fun g => find_2d_mean g in_loops time_steps))
      = groups.map (fun g => (g.map (fun traj : List F => traj.getD t 0)).sum
          / (in_loops : F)) := by
    apply List.map_congr_left
    intro g hg
    have := find_2d_mean_getD g time_steps t ht
    rw [hgroup g hg] at this
    exact this
  rw [h2, sum_map_div, List.map_flatten, List.sum_flatten, List.map_map, div_div]
  simp [Function.comp_def]

/-- Witness for C3: two groups of two trajectories of length 2, at index 1. -/
theorem two_level_mean_eq_flat_mean_witness :
    (find_2d_mean (([[[1, 2], [3, 4]], [[5, 6], [7, 8]]] : List (List (List ℚ))).map
        (fun g => find_2d_mean g 2 2)) 2 2)[1]?
      = some ((([[[1, 2], [3, 4]], [[5, 6], [7, 8]]] : List (List (List ℚ))).flatten.map
          (fun traj => traj.getD 1 0)).sum / ((2 * 2 : Nat) : ℚ)) :=
  two_level_mean_eq_flat_mean [[[1, 2], [3, 4]], [[5, 6], [7, 8]]] 2 2 2
    (by decide) (by decide) rfl (by simp) (by simp) 1 (by decide)

/-- C4: for `count > 0` trajectories of equal length `L`, `find_2d_mean`
returns a trajectory of length `L` whose element `t`, for every `t < L`, is
the sum over all trajectories of `trajectory[t]`, divided by `count`; the
running sum of a column does not enter the next column. -/
theorem find_2d_mean_columns (matrix : List (List F)) (count L : Nat) (_hcount : 0 < count)
    (hrows : matrix.length = count)
    (_hlen : ∀ row, row ∈ matrix → row.length = L) :
    (find_2d_mean matrix count L).length = L
      ∧ ∀ t : Nat, t < L →
        (find_2d_mean matrix count L)[t]?
          = some ((matrix.map (fun row => row.getD t 0)).sum / (count : F)) := by
  subst hrows
  rw [find_2d_mean_rows]
  refine ⟨by simp, fun t ht => ?_⟩
  rw [getElem?_map_range _ _ t ht]

/-- Witness for C4: two trajectories of length 3 over the rationals. -/
theorem find_2d_mean_columns_witness :
    (find_2d_mean ([[1, 2, 3], [3, 4, 6]] : List (List ℚ)) 2 3).length = 3
      ∧ ∀ t : Nat, t < 3 →
        (find_2d_mean ([[1, 2, 3], [3, 4, 6]] : List (List ℚ)) 2 3)[t]?
          = some ((([[1, 2, 3], [3, 4, 6]] : List (List ℚ)).map
              (fun row => row.getD t 0)).sum / ((2 : Nat) : ℚ)) :=
  find_2d_mean_columns [[1, 2, 3], [3, 4, 6]] 2 3 (by decide) rfl (by simp)

/-- C5: for `time_steps ≥ 2` the trajectory returned by
`run_black_scholes_model` has exactly `time_steps` elements and its element 0
is the given spot price. -/
theorem run_black_scholes_model_length_head (exp sqrtf : F → F) (rng : RandomSource F)
    (k : Nat) (spot_price : F) (time_steps : Int) (risk_rate volatility : F)
    (hts : 2 ≤ time_steps) :
    ∃ trajectory,
      run_black_scholes_model exp sqrtf rng k spot_price time_steps risk_rate volatility
        = .ok trajectory
      ∧ (trajectory.length : Int) = time_steps ∧ trajectory[0]? = some spot_price := by
  refine ⟨_, run_black_scholes_model_eq exp sqrtf rng k spot_price time_steps risk_rate
    volatility (by omega), ?_, ?_⟩
  · simp only [List.length_map, List.length_range]
    omega
  · rw [getElem?_map_range _ _ 0 (by omega)]
    rfl

/-- Witness for C5: 180 time steps over the reals. -/
theorem run_black_scholes_model_length_head_witness :
    ∃ trajectory,
      run_black_scholes_model Real.exp Real.sqrt (fun _ _ _ => 1) 0 (100 : ℝ) 180 0.001 0.2
        = .ok trajectory
      ∧ (trajectory.length : Int) = 180 ∧ trajectory[0]? = some 100 :=
  run_black_scholes_model_length_head Real.exp Real.sqrt (fun _ _ _ => 1) 0 100 180 0.001 0.2
    (by decide)

/-- C6: on the line `99.5,100.2,100.8` with spot price 100 and
`time_steps = 4`, `calculate_volatility` stores the three values 99.5, 100.2
and 100.8, computes the mean 100.125 and the sum of squares 0.8675, and
returns `sqrt(0.8675) / 100`, which is within 0.000001 of 0.009314. -/
theorem calculate_volatility_scenario :
    (read_prices "99.5,100.2,100.8".data 3 : Except Fault (List ℝ))
        = .ok [99.5, 100.2, 100.8]
      ∧ mean_price (100 : ℝ) 3 [99.5, 100.2, 100.8] = 100.125
      ∧ sum_sq_dev (100 : ℝ) 3 [99.5, 100.2, 100.8] 100.125 = 0.8675
      ∧ calculate_volatility Real.sqrt (.opened "99.5,100.2,100.8") (100 : ℝ) 4
          = .ok (Real.sqrt 0.8675 / 100)
      ∧ |Real.sqrt 0.8675 / 100 - 0.009314| < 0.000001 := by
  have hparse : (getline_tokens "99.5,100.2,100.8".data).map stof
      = ([⟨false, 995, -1⟩, ⟨false, 1002, -1⟩, ⟨false, 1008, -1⟩] : List Decimal).map
        Except.ok := rfl
  have hread : (read_prices "99.5,100.2,100.8".data 3 : Except Fault (List ℝ))
      = .ok [99.5, 100.2, 100.8] := by
    rw [read_prices_eq _ _ 3 hparse (by decide)]
    norm_num [Decimal.value]
  have hmean : mean_price (100 : ℝ) 3 [99.5, 100.2, 100.8] = 100.125 := by
    have := mean_price_eq (100 : ℝ) [99.5, 100.2, 100.8]
    simp only [List.length_cons, List.length_nil] at this
    rw [this]
    norm_num
  have hsum : sum_sq_dev (100 : ℝ) 3 [99.5, 100.2, 100.8] 100.125 = 0.8675 := by
    have := sum_sq_dev_eq (100 : ℝ) 100.125 [99.5, 100.2, 100.8]
    simp only [List.length_cons, List.length_nil] at this
    rw [this]
    norm_num
  have hvol : calculate_volatility Real.sqrt (.opened "99.5,100.2,100.8") (100 : ℝ) 4
      = .ok (Real.sqrt 0.8675 / 100) := by
    have hline : getline_first "99.5,100.2,100.8".data = some "99.5,100.2,100.8".data := rfl
    unfold calculate_volatility
    simp only [hline]
    unfold volatility_of_line
    have h3 : ((4 : Int) - 1).toNat = 3 := by decide
    have h4 : ¬ ((4 : Int) - 1 < 0) := by decide
    simp only [h4, if_false, h3, hread, hmean, hsum]
  refine ⟨hread, hmean, hsum, hvol, ?_⟩
  have hlo : (0.9313 : ℝ) < Real.sqrt 0.8675 := by
    rw [Real.lt_sqrt (by norm_num)]
    norm_num
  have hhi : Real.sqrt 0.8675 < (0.9315 : ℝ) := by
    rw [Real.sqrt_lt' (by norm_num)]
    norm_num
  rw [abs_lt]
  constructor <;> linarith

/-- C7: for `time_steps ≥ 2`, with volatility 0 and every draw equal to 0,
`run_black_scholes_model` returns the trajectory with
`trajectory[0] = spot_price` and, for every `i` from 0 to `time_steps - 2`,
`trajectory[i+1] = trajectory[i] * exp(risk_rate * deltaT)`,
`deltaT = 1 / time_steps`. -/
theorem run_black_scholes_model_zero_volatility (exp sqrtf : F → F) (rng : RandomSource F)
    (k : Nat) (spot_price : F) (time_steps : Int) (risk_rate : F)
    (hts : 2 ≤ time_steps) (_hzero : ∀ j, rand_gen rng j 0 1 = 0) :
    ∃ trajectory,
      run_black_scholes_model exp sqrtf rng k spot_price time_steps risk_rate 0
        = .ok trajectory
      ∧ trajectory[0]? = some spot_price
      ∧ ∀ i : Nat, (i : Int) ≤ time_steps - 2 →
        ∃ a b, trajectory[i]? = some a ∧ trajectory[i + 1]? = some b
          ∧ b = a * exp (risk_rate * (1 / (time_steps : F))) := by
  refine ⟨_, run_black_scholes_model_eq exp sqrtf rng k spot_price time_steps risk_rate
    0 (by omega), ?_, ?_⟩
  · rw [getElem?_map_range _ _ 0 (by omega)]
    rfl
  · intro i hi
    refine ⟨_, _, getElem?_map_range _ _ i (by omega),
      getElem?_map_range _ _ (i + 1) (by omega), ?_⟩
    simp [growth]

/-- Witness for C7: four time steps over the reals with a source of zeros. -/
theorem run_black_scholes_model_zero_volatility_witness :
    ∃ trajectory,
      run_black_scholes_model Real.exp Real.sqrt (fun _ _ _ => 0) 0 (100 : ℝ) 4 0.001 0
        = .ok trajectory
      ∧ trajectory[0]? = some 100
      ∧ ∀ i : Nat, (i : Int) ≤ 4 - 2 →
        ∃ a b, trajectory[i]? = some a ∧ trajectory[i + 1]? = some b
          ∧ b = a * Real.exp (0.001 * (1 / ((4 : Int) : ℝ))) :=
  run_black_scholes_model_zero_volatility Real.exp Real.sqrt (fun _ _ _ => 0) 0 100 4 0.001
    (by decide) (fun _ => rfl)

/-- C8: with `in_loops = 1`, `out_loops = 1` and a random source that returns
0 on every draw, the final trajectory computed by lines 165 to 177 of `main`
is exactly the single simulated path: element 0 is `spot_price` and element
`i + 1` is element `i` times `exp((risk_rate - volatility² / 2) * deltaT)`,
for every `time_steps ≥ 2`. -/
theorem simulate_single_path_zero_draws (exp sqrtf : F → F) (rng : RandomSource F)
    (spot_price : F) (time_steps : Int) (risk_rate volatility : F)
    (hts : 2 ≤ time_steps) (hzero : ∀ j, rand_gen rng j 0 1 = 0) :
    ∃ trajectory,
      simulate exp sqrtf rng 1 1 time_steps risk_rate spot_price volatility = .ok trajectory
      ∧ run_black_scholes_model exp sqrtf rng 0 spot_price time_steps risk_rate volatility
        = .ok trajectory
      ∧ (trajectory.length : Int) = time_steps
      ∧ trajectory[0]? = some spot_price
      ∧ ∀ i : Nat, (i : Int) ≤ time_steps - 2 →
        ∃ a b, trajectory[i]? = some a ∧ trajectory[i + 1]? = some b
          ∧ b = a * exp ((risk_rate - volatility ^ 2 / 2) * (1 / (time_steps : F))) := by
  have hp := run_black_scholes_model_eq exp sqrtf rng 0 spot_price time_steps risk_rate
    volatility (by omega)
  refine ⟨_, (simulate_one_one exp sqrtf rng time_steps risk_rate spot_price volatility
    (by omega)).trans hp, hp, ?_, ?_, ?_⟩
  · simp only [List.length_map, List.length_range]
    omega
  · rw [getElem?_map_range _ _ 0 (by omega)]
    rfl
  · intro i hi
    refine ⟨_, _, getElem?_map_range _ _ i (by omega),
      getElem?_map_range _ _ (i + 1) (by omega), ?_⟩
    simp [growth, hzero]

/-- Witness for C8: four time steps over the reals with a source of zeros. -/
theorem simulate_single_path_zero_draws_witness :
    ∃ trajectory,
      simulate Real.exp Real.sqrt (fun _ _ _ => 0) 1 1 4 0.001 (100 : ℝ) 0.2 = .ok trajectory
      ∧ run_black_scholes_model Real.exp Real.sqrt (fun _ _ _ => 0) 0 (100 : ℝ) 4 0.001 0.2
        = .ok trajectory
      ∧ (trajectory.length : Int) = 4
      ∧ trajectory[0]? = some 100
      ∧ ∀ i : Nat, (i : Int) ≤ 4 - 2 →
        ∃ a b, trajectory[i]? = some a ∧ trajectory[i + 1]? = some b
          ∧ b = a * Real.exp ((0.001 - 0.2 ^ 2 / 2) * (1 / ((4 : Int) : ℝ))) :=
  simulate_single_path_zero_draws Real.exp Real.sqrt (fun _ _ _ => 0) 100 4 0.001 0.2
    (by decide) (fun _ => rfl)

/-- C9: whatever the data source, the spot price and `time_steps`, a value
returned by `calculate_volatility` (computed with the real square root) is
greater than or equal to 0. -/
theorem calculate_volatility_nonneg (data : DataSource) (spot_price : ℝ) (time_steps : Int)
    (v : ℝ) (h : calculate_volatility Real.sqrt data spot_price time_steps = .ok v) :
    0 ≤ v := by
  unfold calculate_volatility at h
  cases data with
  | unopenable => simp at h
  | opened content =>
    simp only at h
    cases hl : getline_first content.data with
    | none => simp [hl] at h
    | some line =>
      simp only [hl] at h
      unfold volatility_of_line at h
      split at h
      · simp at h
      · dsimp only at h
        split at h
        · cases h
        · cases h
          exact div_nonneg (Real.sqrt_nonneg _) (by norm_num)

/-- Witness for C9: the line `1,2` with spot price 3 and `time_steps = 3`
returns a value, and that value is not negative. -/
theorem calculate_volatility_nonneg_witness :
    ∃ v : ℝ, calculate_volatility Real.sqrt (.opened "1,2") 3 3 = .ok v ∧ 0 ≤ v :=
  have h := volatility_of_line_eq Real.sqrt ['1', ',', '2'] [⟨false, 1, 0⟩, ⟨false, 2, 0⟩]
    3 3 rfl (by decide)
  ⟨_, h, calculate_volatility_nonneg (.opened "1,2") 3 3 _ h⟩

/-- C10: `find_2d_mean` applied to the one-element collection `[T]` with
count 1 returns a trajectory equal to `T` element by element. -/
theorem find_2d_mean_singleton (T : List F) : find_2d_mean [T] 1 T.length = T :=
  find_2d_mean_single T

/-- C11: for `count > 0` trajectories of equal length and every permutation of
the collection, `find_2d_mean` returns the same trajectory for the permuted
collection as for the original one (in exact arithmetic). -/
theorem find_2d_mean_perm (matrix permuted : List (List F)) (count L : Nat)
    (_hcount : 0 < count) (hrows : matrix.length = count)
    (_hlen : ∀ row, row ∈ matrix → row.length = L)
    (hperm : List.Perm permuted matrix) :
    find_2d_mean permuted count L = find_2d_mean matrix count L := by
  have hp : permuted.length = count := by rw [hperm.length_eq, hrows]
  subst hrows
  have h1 := find_2d_mean_rows permuted L
  rw [hp] at h1
  rw [h1, find_2d_mean_rows]
  apply List.map_congr_left
  intro t _
  rw [(hperm.map (fun row : List F => row.getD t 0)).sum_eq]

/-- Witness for C11: three trajectories of length 2 and a rotation of them. -/
theorem find_2d_mean_perm_witness :
    find_2d_mean ([[5, 6], [1, 2], [3, 4]] : List (List ℚ)) 3 2
      = find_2d_mean ([[1, 2], [3, 4], [5, 6]] : List (List ℚ)) 3 2 :=
  find_2d_mean_perm [[1, 2], [3, 4], [5, 6]] [[5, 6], [1, 2], [3, 4]] 3 2 (by decide) rfl
    (by simp) (List.perm_append_comm :
      List.Perm (([[5, 6]] : List (List ℚ)) ++ [[1, 2], [3, 4]]) ([[1, 2], [3, 4]] ++ [[5, 6]]))

/-- C12, counterexample: with `time_steps = 0` the divisor of `deltaT` is zero,
the length `time_steps - 1` of `norm_rand` is negative, and the function ends
in the allocation fault instead of returning. -/
theorem run_black_scholes_model_zero_steps :
    (((0 : Int) : ℝ) = 0) ∧ ((0 : Int) - 1 < 0)
      ∧ run_black_scholes_model Real.exp Real.sqrt (fun _ _ _ => 0) 0 (100 : ℝ) 0 0.001 0.2
        = .error .badAlloc
      ∧ run_black_scholes_model_checked Real.exp Real.sqrt (fun _ _ _ => 0) 0 (100 : ℝ) 0
          0.001 0.2
        = .error .badAlloc :=
  ⟨Int.cast_zero, by decide, rfl, rfl⟩

/-- C12, amended: for every `time_steps ≥ 1` (1 included),
`run_black_scholes_model` has no error condition: the divisor of `deltaT` is
not zero, the array lengths `time_steps` and `time_steps - 1` are not
negative, every array index read or written is within bounds, and a
trajectory is returned. -/
theorem run_black_scholes_model_no_error [CharZero F] (exp sqrtf : F → F)
    (rng : RandomSource F) (k : Nat) (spot_price : F) (time_steps : Int)
    (risk_rate volatility : F) (hts : 1 ≤ time_steps) :
    (time_steps : F) ≠ 0 ∧ 0 ≤ time_steps ∧ 0 ≤ time_steps - 1
      ∧ ∃ trajectory,
        run_black_scholes_model_checked exp sqrtf rng k spot_price time_steps risk_rate
            volatility = .ok trajectory
        ∧ run_black_scholes_model exp sqrtf rng k spot_price time_steps risk_rate
            volatility = .ok trajectory := by
  have hrun := run_black_scholes_model_eq exp sqrtf rng k spot_price time_steps risk_rate
    volatility hts
  refine ⟨Int.cast_ne_zero.mpr (by omega), by omega, by omega, _, ?_, hrun⟩
  rw [run_black_scholes_model_checked_eq exp sqrtf rng k spot_price time_steps risk_rate
    volatility hts]
  exact hrun

/-- Witness for C12: a single time step over the reals. -/
theorem run_black_scholes_model_no_error_witness :
    (((1 : Int) : ℝ) ≠ 0) ∧ (0 : Int) ≤ 1 ∧ (0 : Int) ≤ 1 - 1
      ∧ ∃ trajectory,
        run_black_scholes_model_checked Real.exp Real.sqrt (fun _ _ _ => 0) 0 (100 : ℝ) 1
            0.001 0.2 = .ok trajectory
        ∧ run_black_scholes_model Real.exp Real.sqrt (fun _ _ _ => 0) 0 (100 : ℝ) 1
            0.001 0.2 = .ok trajectory :=
  run_black_scholes_model_no_error Real.exp Real.sqrt (fun _ _ _ => 0) 0 100 1 0.001 0.2
    (by decide)

/-- C13, counterexample: the first line `1e40` is one well-formed number and
`time_steps = 2` asks for one, yet no value is returned: the number is beyond
the range of `float` and `stof` throws `std::out_of_range`, which nothing
catches. -/
theorem calculate_volatility_out_of_range :
    (getline_tokens "1e40".data).length = 1
      ∧ stof "1e40".data = .error .outOfRange
      ∧ calculate_volatility Real.sqrt (.opened "1e40") (100 : ℝ) 2 = .error .outOfRange :=
  ⟨rfl, rfl, rfl⟩

/-- C13, amended: `calculate_volatility` ends in `exit(EXIT_FAILURE)` when the
source cannot be opened and when it is open but empty, so that no first line
can be read; it returns a value whenever the first line holds
`time_steps - 1` numbers that `stof` converts, that is well-formed numbers
within the range of `float`; and what follows the first line of the source
has no influence on the result, which is that of lines 37 to 63 on the first
line. -/
theorem calculate_volatility_source (sqrtf : F → F) (spot_price : F) (time_steps : Int) :
    calculate_volatility sqrtf .unopenable spot_price time_steps = .error .exitFailure
      ∧ calculate_volatility sqrtf (.opened "") spot_price time_steps = .error .exitFailure
      ∧ (∀ (content : String) (line : List Char) (ds : List Decimal),
          getline_first content.data = some line →
          (getline_tokens line).map stof = ds.map Except.ok →
          (ds.length : Int) = time_steps - 1 →
          ∃ v, calculate_volatility sqrtf (.opened content) spot_price time_steps = .ok v)
      ∧ (∀ line rest rest' : List Char, '\n' ∉ line →
          calculate_volatility sqrtf (.opened (String.mk (line ++ '\n' :: rest)))
              spot_price time_steps
            = volatility_of_line sqrtf line spot_price time_steps
          ∧ calculate_volatility sqrtf (.opened (String.mk (line ++ '\n' :: rest')))
              spot_price time_steps
            = calculate_volatility sqrtf (.opened (String.mk (line ++ '\n' :: rest)))
              spot_price time_steps) := by
  refine ⟨rfl, rfl, ?_, ?_⟩
  · intro content line ds hline hparse hN
    have hv := volatility_of_line_eq sqrtf line ds spot_price time_steps hparse (by omega)
    have hc : calculate_volatility sqrtf (.opened content) spot_price time_steps
        = volatility_of_line sqrtf line spot_price time_steps := by
      unfold calculate_volatility
      simp only [hline]
    exact ⟨_, hc.trans hv⟩
  · intro line rest rest' hnl
    have h1 : ∀ tail : List Char,
        calculate_volatility sqrtf (.opened (String.mk (line ++ '\n' :: tail)))
            spot_price time_steps
          = volatility_of_line sqrtf line spot_price time_steps := by
      intro tail
      unfold calculate_volatility
      simp only [getline_first_line line tail hnl]
    exact ⟨h1 rest, (h1 rest').trans (h1 rest).symm⟩

/-- Witness for C13: the source `1,2` followed by a second line, with
`time_steps = 3`, returns a value. -/
theorem calculate_volatility_source_witness :
    ∃ v : ℝ, calculate_volatility Real.sqrt (.opened "1,2\n7,oops") 3 3 = .ok v :=
  (calculate_volatility_source Real.sqrt (3 : ℝ) 3).2.2.1 "1,2\n7,oops" ['1', ',', '2']
    [⟨false, 1, 0⟩, ⟨false, 2, 0⟩] rfl rfl (by decide)

/-- C14: for `in_loops ≥ 1`, `out_loops ≥ 1`, `time_steps ≥ 2` and every
random source, when the volatility has been computed and `opt.csv` opens, the
trajectory that `main` writes has exactly `time_steps` values and its first
value is the spot price (in exact arithmetic of characteristic 0). -/
theorem main_output_length_head [CharZero F] (exp sqrtf : F → F) (data : DataSource)
    (rng : RandomSource F) (in_loops out_loops : Nat) (time_steps : Int)
    (risk_rate spot_price volatility : F)
    (hin : 1 ≤ in_loops) (hout : 1 ≤ out_loops) (hts : 2 ≤ time_steps)
    (hvol : calculate_volatility sqrtf data spot_price time_steps = .ok volatility) :
    ∃ opt_stock,
      main exp sqrtf data rng true in_loops out_loops time_steps risk_rate spot_price
        = .ok opt_stock
      ∧ (opt_stock.length : Int) = time_steps ∧ opt_stock[0]? = some spot_price := by
  have hsim := simulate_eq_of_paths exp sqrtf rng in_loops out_loops time_steps risk_rate
    spot_price volatility _ (fun i j => run_black_scholes_model_eq exp sqrtf rng
      ((i * in_loops + j) * (time_steps - 1).toNat) spot_price time_steps risk_rate
      volatility (by omega))
  have hmain : main exp sqrtf data rng true in_loops out_loops time_steps risk_rate
      spot_price = simulate exp sqrtf rng in_loops out_loops time_steps risk_rate
        spot_price volatility := by
    have hneg : ¬ (time_steps < 0) := by omega
    unfold main
    simp only [hneg, if_false, hvol]
    cases simulate exp sqrtf rng in_loops out_loops time_steps risk_rate spot_price
      volatility <;> rfl
  have hpos : 0 < time_steps.toNat := by omega
  have hinF : (((List.range in_loops).length : Nat) : F) ≠ 0 := by
    rw [List.length_range]
    exact Nat.cast_ne_zero.mpr (by omega)
  have houtF : ∀ rows : Nat → List F,
      ((((List.range out_loops).map rows).length : Nat) : F) ≠ 0 := by
    intro rows
    rw [List.length_map, List.length_range]
    exact Nat.cast_ne_zero.mpr (by omega)
  refine ⟨_, hmain.trans hsim, ?_, ?_⟩
  · rw [find_2d_mean_length]
    omega
  · have hhead : ∀ matrix : List (List F), ∀ count : Nat,
        (find_2d_mean matrix count time_steps.toNat)[0]?
          = some ((find_2d_mean matrix count time_steps.toNat).getD 0 0) := by
      intro matrix count
      rw [List.getD_eq_getElem?_getD, List.getElem?_eq_getElem
        (by rw [find_2d_mean_length]; exact hpos)]
      rfl
    rw [hhead]
    congr 1
    have houter := find_2d_mean_const_column ((List.range out_loops).map (fun i =>
        find_2d_mean ((List.range in_loops).map (fun j =>
          (List.range time_steps.toNat).map (growth spot_price (fun s =>
            exp ((risk_rate - volatility ^ 2 / 2) * (1 / (time_steps : F))
              + volatility * rand_gen rng ((i * in_loops + j) * (time_steps - 1).toNat + s)
                  0 1 * sqrtf (1 / (time_steps : F)))))))
          in_loops time_steps.toNat)) time_steps.toNat 0 spot_price (houtF _) hpos
    simp only [List.length_map, List.length_range] at houter
    apply houter
    intro row hrow
    obtain ⟨i, _, rfl⟩ := List.mem_map.mp hrow
    have hinner := find_2d_mean_const_column ((List.range in_loops).map (fun j =>
        (List.range time_steps.toNat).map (growth spot_price (fun s =>
          exp ((risk_rate - volatility ^ 2 / 2) * (1 / (time_steps : F))
            + volatility * rand_gen rng ((i * in_loops + j) * (time_steps - 1).toNat + s)
                0 1 * sqrtf (1 / (time_steps : F)))))))
        time_steps.toNat 0 spot_price
        (by rw [List.length_map]; exact hinF) hpos
    simp only [List.length_map, List.length_range] at hinner
    apply hinner
    intro path hpath
    obtain ⟨j, _, rfl⟩ := List.mem_map.mp hpath
    have := getD_map_range_append (growth spot_price (fun s =>
        exp ((risk_rate - volatility ^ 2 / 2) * (1 / (time_steps : F))
          + volatility * rand_gen rng ((i * in_loops + j) * (time_steps - 1).toNat + s)
              0 1 * sqrtf (1 / (time_steps : F))))) 0 time_steps.toNat 0 [] hpos
    simpa [growth] using this

/-- Witness for C14: two outer and two inner iterations over three time steps
from spot price 3, the volatility being read from the line `1,2`. -/
theorem main_output_length_head_witness :
    ∃ opt_stock,
      main Real.exp Real.sqrt (.opened "1,2") (fun j _ _ => (j : ℝ)) true 2 2 3 0.001 (3 : ℝ)
        = .ok opt_stock
      ∧ (opt_stock.length : Int) = 3 ∧ opt_stock[0]? = some 3 :=
  main_output_length_head Real.exp Real.sqrt (.opened "1,2") (fun j _ _ => (j : ℝ)) 2 2 3
    0.001 3 _ (by decide) (by decide) (by decide)
    (volatility_of_line_eq Real.sqrt ['1', ',', '2'] [⟨false, 1, 0⟩, ⟨false, 2, 0⟩] 3 3 rfl
      (by decide))

/-- C15, counterexample: with `time_steps = 2` the buffer has one entry and
the line `x,1,2` has three tokens, yet nothing is written out of bounds:
`stof` throws on the first token and the run ends there. -/
theorem calculate_volatility_bounds_unconvertible :
    (getline_tokens "x,1,2".data).length = 3
      ∧ calculate_volatility Real.sqrt (.opened "x,1,2") (100 : ℝ) 2
        = .error .invalidArgument :=
  ⟨rfl, rfl⟩

/-- C15, amended: each token is converted and then stored, token `k` at index
`k` of a buffer of `time_steps - 1 ≥ 0` entries, with no bound check.  A line
of at most `time_steps - 1` tokens never accesses the buffer out of bounds;
a line with more tokens, the first `time_steps` of which `stof` converts to a
number (it throws neither `std::invalid_argument` nor `std::out_of_range`
and returns no infinity or NaN), writes out of bounds at index
`time_steps - 1`; so for a line all of whose tokens are so converted, no
access is out of bounds if and only if it has at most `time_steps - 1`
tokens. -/
theorem calculate_volatility_bounds (sqrtf : F → F) (content : String) (line : List Char)
    (spot_price : F) (time_steps : Int) (hts : 1 ≤ time_steps)
    (hline : getline_first content.data = some line) :
    (((getline_tokens line).length : Int) ≤ time_steps - 1 →
        ∀ index size, calculate_volatility sqrtf (.opened content) spot_price time_steps
          ≠ .error (.outOfBounds index size))
      ∧ (∀ ds : List Decimal,
          ((getline_tokens line).take time_steps.toNat).map stof = ds.map Except.ok →
          time_steps - 1 < ((getline_tokens line).length : Int) →
          calculate_volatility sqrtf (.opened content) spot_price time_steps
            = .error (.outOfBounds (time_steps - 1).toNat (time_steps - 1).toNat))
      ∧ (∀ ds : List Decimal, (getline_tokens line).map stof = ds.map Except.ok →
          ((∀ index size, calculate_volatility sqrtf (.opened content) spot_price time_steps
              ≠ .error (.outOfBounds index size))
            ↔ ((getline_tokens line).length : Int) ≤ time_steps - 1)
          ∧ (((getline_tokens line).length : Int) ≤ time_steps - 1 →
            (∃ v, calculate_volatility sqrtf (.opened content) spot_price time_steps = .ok v)
            ∧ ∃ priceArr : List F, read_prices line (time_steps - 1).toNat = .ok priceArr
              ∧ (priceArr.length : Int) = time_steps - 1
              ∧ ∀ k : Nat, ∀ hk : k < ds.length, priceArr[k]? = some (ds[k]).value)) := by
  have hc : calculate_volatility sqrtf (.opened content) spot_price time_steps
      = volatility_of_line sqrtf line spot_price time_steps := by
    unfold calculate_volatility
    simp only [hline]
  have h1 : ¬ (time_steps - 1 < 0) := by omega
  have hsucc : time_steps.toNat = (time_steps - 1).toNat + 1 := by omega
  have hfits : ((getline_tokens line).length : Int) ≤ time_steps - 1 →
      ∀ index size, calculate_volatility sqrtf (.opened content) spot_price time_steps
        ≠ .error (.outOfBounds index size) := by
    intro hle index size
    rw [hc]
    unfold volatility_of_line
    simp only [h1, if_false]
    have hr := read_prices_fits (F := F) line (time_steps - 1).toNat (by omega) index size
    cases hread : (read_prices line (time_steps - 1).toNat : Except Fault (List F)) with
    | error e =>
      rw [hread] at hr
      simpa using hr
    | ok priceArr => simp
  have hover : ∀ ds : List Decimal,
      ((getline_tokens line).take time_steps.toNat).map stof = ds.map Except.ok →
      time_steps - 1 < ((getline_tokens line).length : Int) →
      calculate_volatility sqrtf (.opened content) spot_price time_steps
        = .error (.outOfBounds (time_steps - 1).toNat (time_steps - 1).toNat) := by
    intro ds hparse hgt
    rw [hsucc] at hparse
    rw [hc]
    unfold volatility_of_line
    simp only [h1, if_false]
    rw [read_prices_overflow_first line ds _ hparse (by omega)]
  refine ⟨hfits, hover, ?_⟩
  intro ds hparse
  have hlen : ds.length = (getline_tokens line).length := by
    have := congrArg List.length hparse
    simpa using this.symm
  refine ⟨⟨?_, hfits⟩, ?_⟩
  · intro hno
    by_contra hgt
    have htake : ((getline_tokens line).take time_steps.toNat).map stof
        = (ds.take time_steps.toNat).map Except.ok := by
      rw [List.map_take, hparse, ← List.map_take]
    exact hno _ _ (hover _ htake (by omega))
  · intro hle
    refine ⟨⟨_, hc.trans (volatility_of_line_eq sqrtf line ds spot_price time_steps hparse
      (by omega))⟩, _, read_prices_eq line ds _ hparse (by omega), ?_, ?_⟩
    · simp only [List.length_append, List.length_map, List.length_replicate]
      omega
    · intro k hk
      rw [List.getElem?_append_left (by simpa using hk)]
      simp [List.getElem?_eq_getElem hk]

/-- Witness for C15: the line `1,2,3` with `time_steps = 3`, a buffer of two
entries, writes out of bounds at index 2. -/
theorem calculate_volatility_bounds_witness :
    calculate_volatility Real.sqrt (.opened "1,2,3") (100 : ℝ) 3
      = .error (.outOfBounds ((3 : Int) - 1).toNat ((3 : Int) - 1).toNat) :=
  (calculate_volatility_bounds Real.sqrt "1,2,3" ['1', ',', '2', ',', '3']
    (100 : ℝ) 3 (by decide) rfl).2.1 [⟨false, 1, 0⟩, ⟨false, 2, 0⟩, ⟨false, 3, 0⟩] rfl
    (by decide)

/-- C16: when the line holds `k < time_steps - 1` values, `calculate_volatility`
does not take `N = k`: it returns what it returns on the line padded with
`time_steps - 1 - k` values 0, that is, the mean is
`(spot_price + Σ values) / time_steps` and each missing entry adds `mean²`
to the sum of squared deviations. -/
theorem calculate_volatility_short_line (sqrtf : F → F) (content : String)
    (line : List Char) (ds : List Decimal) (spot_price : F) (time_steps : Int)
    (hline : getline_first content.data = some line)
    (hparse : (getline_tokens line).map stof = ds.map Except.ok)
    (hk : (ds.length : Int) < time_steps - 1) :
    calculate_volatility sqrtf (.opened content) spot_price time_steps
        = .ok (sqrtf (spec_sum_sq spot_price
            (ds.map Decimal.value ++ List.replicate ((time_steps - 1).toNat - ds.length) 0))
            / 100)
      ∧ spec_mean spot_price
          (ds.map Decimal.value ++ List.replicate ((time_steps - 1).toNat - ds.length) 0)
        = (spot_price + (ds.map Decimal.value).sum) / (time_steps : F)
      ∧ spec_sum_sq spot_price
          (ds.map Decimal.value ++ List.replicate ((time_steps - 1).toNat - ds.length) 0)
        = (spot_price - (spot_price + (ds.map Decimal.value).sum) / (time_steps : F)) ^ 2
          + ((ds.map Decimal.value).map (fun p =>
              (p - (spot_price + (ds.map Decimal.value).sum) / (time_steps : F)) ^ 2)).sum
          + (((time_steps - 1).toNat - ds.length : Nat) : F)
            * ((spot_price + (ds.map Decimal.value).sum) / (time_steps : F)) ^ 2 := by
  have hc : calculate_volatility sqrtf (.opened content) spot_price time_steps
      = volatility_of_line sqrtf line spot_price time_steps := by
    unfold calculate_volatility
    simp only [hline]
  have hmean : spec_mean spot_price
      (ds.map Decimal.value ++ List.replicate ((time_steps - 1).toNat - ds.length) 0)
      = (spot_price + (ds.map Decimal.value).sum) / (time_steps : F) := by
    unfold spec_mean
    have hcast : (((ds.map (Decimal.value : Decimal → F)
        ++ List.replicate ((time_steps - 1).toNat - ds.length) 0).length : Nat) : F) + 1
        = (time_steps : F) := by
      have hnat : (((ds.map (Decimal.value : Decimal → F)
          ++ List.replicate ((time_steps - 1).toNat - ds.length) 0).length : Nat) : Int) + 1
          = time_steps := by
        simp only [List.length_append, List.length_map, List.length_replicate]
        omega
      have hF := congrArg (Int.cast : Int → F) hnat
      push_cast at hF
      exact hF
    rw [hcast]
    simp
  refine ⟨hc.trans (volatility_of_line_eq sqrtf line ds spot_price time_steps hparse
    (by omega)), hmean, ?_⟩
  unfold spec_sum_sq
  rw [hmean]
  simp [List.map_append, List.sum_append, List.map_replicate, List.sum_replicate, add_assoc]

/-- Witness for C16: the line `4` alone with spot price 2 and `time_steps = 3`:
one value is missing, the mean is `(2 + 4) / 3`. -/
theorem calculate_volatility_short_line_witness :
    calculate_volatility Real.sqrt (.opened "4") (2 : ℝ) 3
      = .ok (Real.sqrt (spec_sum_sq 2
          (([⟨false, 4, 0⟩] : List Decimal).map Decimal.value
            ++ List.replicate (((3 : Int) - 1).toNat - 1) 0)) / 100) :=
  (calculate_volatility_short_line Real.sqrt "4" ['4'] [⟨false, 4, 0⟩] (2 : ℝ) 3 rfl rfl
    (by decide)).1

/-- C18: for `time_steps ≥ 2`, with volatility 0, `run_black_scholes_model`
returns the same trajectory for any two random sources, whatever their draws
and however many draws were made before the call. -/
theorem run_black_scholes_model_zero_volatility_any_draws (exp sqrtf : F → F)
    (rng rng' : RandomSource F) (k k' : Nat) (spot_price : F) (time_steps : Int)
    (risk_rate : F) (hts : 2 ≤ time_steps) :
    ∃ trajectory,
      run_black_scholes_model exp sqrtf rng k spot_price time_steps risk_rate 0
        = .ok trajectory
      ∧ run_black_scholes_model exp sqrtf rng' k' spot_price time_steps risk_rate 0
        = .ok trajectory := by
  refine ⟨_, run_black_scholes_model_eq exp sqrtf rng k spot_price time_steps risk_rate 0
    (by omega), ?_⟩
  rw [run_black_scholes_model_eq exp sqrtf rng' k' spot_price time_steps risk_rate 0
    (by omega)]
  congr 1
  apply List.map_congr_left
  intro i _
  apply growth_congr
  intro j _
  simp

/-- Witness for C18: four time steps, a source of ones against a source that
returns the number of the call. -/
theorem run_black_scholes_model_zero_volatility_any_draws_witness :
    ∃ trajectory,
      run_black_scholes_model Real.exp Real.sqrt (fun _ _ _ => 1) 0 (100 : ℝ) 4 0.001 0
        = .ok trajectory
      ∧ run_black_scholes_model Real.exp Real.sqrt (fun j _ _ => (j : ℝ)) 7 (100 : ℝ) 4
          0.001 0
        = .ok trajectory :=
  run_black_scholes_model_zero_volatility_any_draws Real.exp Real.sqrt (fun _ _ _ => 1)
    (fun j _ _ => (j : ℝ)) 0 7 100 4 0.001 (by decide)

/-- C19, counterexample: in `float` a square below `2 ^ (-150)` rounds to 0.
With spot price 0, `time_steps = 2` and the single value `2 ^ (-75)` on the
line, written out in decimal, the mean is `2 ^ (-76)`, both squared deviations
are `2 ^ (-152)` and round to 0, and the function returns 0 although the value
is not the spot price.  Every other result of this run is a `float`, so
`round_tiny` is the rounding of `float` all along it. -/
theorem calculate_volatility_underflow :
    stof "2.6469779601696885595885078146238811314105987548828125e-23".data
        = .ok ⟨false, 26469779601696885595885078146238811314105987548828125, -75⟩
      ∧ ((⟨false, 26469779601696885595885078146238811314105987548828125, -75⟩ :
          Decimal).value : ℝ) = 1 / 2 ^ 75
      ∧ calculate_volatility_rnd round_tiny Real.sqrt
          (.opened "2.6469779601696885595885078146238811314105987548828125e-23") (0 : ℝ) 2
        = .ok 0 := by
  have hstof : stof "2.6469779601696885595885078146238811314105987548828125e-23".data
      = .ok ⟨false, 26469779601696885595885078146238811314105987548828125, -75⟩ := rfl
  have hval : ((⟨false, 26469779601696885595885078146238811314105987548828125, -75⟩ :
      Decimal).value : ℝ) = 1 / 2 ^ 75 := by
    have h75 : Int.toNat 75 = 75 := rfl
    norm_num [Decimal.value, h75]
  have hline : getline_first "2.6469779601696885595885078146238811314105987548828125e-23".data
      = some "2.6469779601696885595885078146238811314105987548828125e-23".data := rfl
  have htok : getline_tokens "2.6469779601696885595885078146238811314105987548828125e-23".data
      = ["2.6469779601696885595885078146238811314105987548828125e-23".data] := rfl
  have r1 : round_tiny ((1 : ℝ) / 2 ^ 75) = 1 / 2 ^ 75 := by
    unfold round_tiny
    rw [if_neg]
    rw [abs_of_pos (by positivity)]
    norm_num
  have hread : (read_prices_rnd round_tiny
      "2.6469779601696885595885078146238811314105987548828125e-23".data 1
        : Except Fault (List ℝ)) = .ok [1 / 2 ^ 75] := by
    unfold read_prices_rnd
    rw [htok]
    simp only [List.foldlM_cons, List.foldlM_nil, store_token_rnd, hstof, hval, r1]
    rfl
  refine ⟨hstof, hval, ?_⟩
  unfold calculate_volatility_rnd
  simp only [hline]
  unfold volatility_of_line_rnd
  have h3 : ((2 : Int) - 1).toNat = 1 := by decide
  have h4 : ¬ ((2 : Int) - 1 < 0) := by decide
  simp only [h4, if_false, h3, hread]
  have hr1 : List.range 1 = [0] := rfl
  have hmean : mean_price_rnd round_tiny (0 : ℝ) 1 [1 / 2 ^ 75] = 1 / 2 ^ 76 := by
    unfold mean_price_rnd
    simp only [hr1, List.foldl_cons, List.foldl_nil, List.getD_cons_zero, zero_add, r1]
    unfold round_tiny
    rw [if_neg]
    · norm_num
    · rw [abs_of_pos (by positivity)]
      norm_num
  have hsum : sum_sq_dev_rnd round_tiny (0 : ℝ) 1 [1 / 2 ^ 75] (1 / 2 ^ 76) = 0 := by
    unfold sum_sq_dev_rnd
    simp only [hr1, List.foldl_cons, List.foldl_nil, List.getD_cons_zero]
    norm_num [round_tiny, abs_of_pos]
  rw [hmean, hsum]
  norm_num [round_tiny]

/-- C19, amended: in exact real arithmetic, when the first line holds exactly
`time_steps - 1` values, `calculate_volatility` returns 0 if and only if
every value equals the spot price, and a value that differs from the spot
price makes the volatility strictly positive. -/
theorem calculate_volatility_zero_iff (content : String) (line : List Char)
    (ds : List Decimal) (spot_price : ℝ) (time_steps : Int)
    (hline : getline_first content.data = some line)
    (hparse : (getline_tokens line).map stof = ds.map Except.ok)
    (hN : (ds.length : Int) = time_steps - 1) :
    ∃ v : ℝ, calculate_volatility Real.sqrt (.opened content) spot_price time_steps = .ok v
      ∧ (v = 0 ↔ ∀ d, d ∈ ds → (d.value : ℝ) = spot_price)
      ∧ ((∃ d, d ∈ ds ∧ (d.value : ℝ) ≠ spot_price) → 0 < v) := by
  have hc : calculate_volatility Real.sqrt (.opened content) spot_price time_steps
      = volatility_of_line Real.sqrt line spot_price time_steps := by
    unfold calculate_volatility
    simp only [hline]
  have hv := volatility_of_line_eq Real.sqrt line ds spot_price time_steps hparse (by omega)
  have h0 : (time_steps - 1).toNat - ds.length = 0 := by omega
  rw [h0, List.replicate_zero, List.append_nil] at hv
  have hiff : Real.sqrt (spec_sum_sq spot_price (ds.map Decimal.value)) / 100 = 0
      ↔ ∀ d, d ∈ ds → (d.value : ℝ) = spot_price := by
    rw [div_eq_zero_iff, Real.sqrt_eq_zero (spec_sum_sq_nonneg _ _), spec_sum_sq_eq_zero_iff]
    simp
  refine ⟨_, hc.trans hv, hiff, ?_⟩
  rintro ⟨d, hd, hne⟩
  have hnn : 0 ≤ Real.sqrt (spec_sum_sq spot_price (ds.map Decimal.value)) / 100 :=
    div_nonneg (Real.sqrt_nonneg _) (by norm_num)
  exact lt_of_le_of_ne hnn (fun h => hne (hiff.mp h.symm d hd))

/-- Witness for C19: the line `1,2` with spot price 3 and `time_steps = 3`. -/
theorem calculate_volatility_zero_iff_witness :
    ∃ v : ℝ, calculate_volatility Real.sqrt (.opened "1,2") 3 3 = .ok v
      ∧ (v = 0 ↔ ∀ d, d ∈ ([⟨false, 1, 0⟩, ⟨false, 2, 0⟩] : List Decimal) →
          (d.value : ℝ) = 3)
      ∧ ((∃ d, d ∈ ([⟨false, 1, 0⟩, ⟨false, 2, 0⟩] : List Decimal) ∧ (d.value : ℝ) ≠ 3)
          → 0 < v) :=
  calculate_volatility_zero_iff "1,2" ['1', ',', '2'] [⟨false, 1, 0⟩, ⟨false, 2, 0⟩] 3 3
    rfl rfl (by decide)

end Claims

end Stockast
